import Mathlib

/-!
Verification development for the league-history-collector repository.

The Python source is shallowly embedded: Python dataclasses become Lean
structures, Python dicts become association lists with insertion-order
semantics (`Dict` below), Python floats become exact rationals, raising
code returns `Except String`.  All definitions are translated from the
repository sources (`league_history_collector/...`); the few places where a
repository file is absent from the source snapshot are modelled from the
specification and marked as such in their doc comments.
-/

set_option maxHeartbeats 1600000

namespace LHC

/-! ## Association-list dictionaries with Python `dict` semantics

A Python `dict` iterates in insertion order; assigning to an existing key
updates the stored value in place (keeping the key's position), assigning a
fresh key appends it.  `dget` is `d.get(k)` / `d[k]`, `dinsert` is
`d[k] = v`, `dmodify` maps the stored value at a present key.
-/

def dget {κ α : Type} [DecidableEq κ] (d : List (κ × α)) (k : κ) : Option α :=
  match d with
  | [] => none
  | (k', v) :: rest => if k' = k then some v else dget rest k

def dinsert {κ α : Type} [DecidableEq κ] (d : List (κ × α)) (k : κ) (v : α) :
    List (κ × α) :=
  match d with
  | [] => [(k, v)]
  | (k', v') :: rest =>
    if k' = k then (k, v) :: rest else (k', v') :: dinsert rest k v

def dmodify {κ α : Type} [DecidableEq κ] (d : List (κ × α)) (k : κ) (f : α → α) :
    List (κ × α) :=
  match d with
  | [] => []
  | (k', v') :: rest =>
    if k' = k then (k', f v') :: rest else (k', v') :: dmodify rest k f

def dkeys {κ α : Type} (d : List (κ × α)) : List κ := d.map Prod.fst

theorem dget_dinsert_eq {κ α : Type} [DecidableEq κ] (d : List (κ × α)) (k : κ)
    (v : α) : dget (dinsert d k v) k = some v := by
  induction d with
  | nil => simp [dget, dinsert]
  | cons hd tl ih =>
    obtain ⟨k', v'⟩ := hd
    by_cases h : k' = k <;> simp [dget, dinsert, h, ih]

theorem dget_dinsert_ne {κ α : Type} [DecidableEq κ] (d : List (κ × α))
    (k k₀ : κ) (v : α) (hne : k ≠ k₀) :
    dget (dinsert d k v) k₀ = dget d k₀ := by
  induction d with
  | nil => simp [dget, dinsert, hne]
  | cons hd tl ih =>
    obtain ⟨k', v'⟩ := hd
    by_cases h : k' = k
    · subst h
      simp [dget, dinsert, hne]
    · simp only [dinsert, if_neg h]
      by_cases h0 : k' = k₀ <;> simp [dget, h0, ih]

theorem dget_dmodify_eq {κ α : Type} [DecidableEq κ] (d : List (κ × α)) (k : κ)
    (f : α → α) : dget (dmodify d k f) k = (dget d k).map f := by
  induction d with
  | nil => simp [dget, dmodify]
  | cons hd tl ih =>
    obtain ⟨k', v'⟩ := hd
    by_cases h : k' = k <;> simp [dget, dmodify, h, ih]

theorem dget_dmodify_ne {κ α : Type} [DecidableEq κ] (d : List (κ × α))
    (k k₀ : κ) (f : α → α) (hne : k ≠ k₀) :
    dget (dmodify d k f) k₀ = dget d k₀ := by
  induction d with
  | nil => simp [dget, dmodify]
  | cons hd tl ih =>
    obtain ⟨k', v'⟩ := hd
    by_cases h : k' = k
    · subst h
      simp [dget, dmodify, hne]
    · simp only [dmodify, if_neg h]
      by_cases h0 : k' = k₀ <;> simp [dget, h0, ih]

theorem dget_eq_none_of_not_mem_dkeys {κ α : Type} [DecidableEq κ]
    (d : List (κ × α)) (k : κ) (h : k ∉ dkeys d) : dget d k = none := by
  induction d with
  | nil => rfl
  | cons hd tl ih =>
    obtain ⟨k', v'⟩ := hd
    have h1 : k' ≠ k := by
      intro hc
      exact h (by simp [dkeys, hc])
    have h2 : k ∉ dkeys tl := by
      intro hc
      exact h (by simp [dkeys] at hc ⊢; exact Or.inr hc)
    simp [dget, h1, ih h2]

theorem dget_isSome_of_mem_dkeys {κ α : Type} [DecidableEq κ]
    (d : List (κ × α)) (k : κ) (h : k ∈ dkeys d) : (dget d k).isSome := by
  induction d with
  | nil => simp [dkeys] at h
  | cons hd tl ih =>
    obtain ⟨k', v'⟩ := hd
    by_cases hk : k' = k
    · simp [dget, hk]
    · have h2 : k ∈ dkeys tl := by
        simp [dkeys] at h ⊢
        rcases h with h | h
        · exact absurd h.symm hk
        · exact h
      simp [dget, hk, ih h2]

/-! ## Shared data model (`league_history_collector/models`) -/

/-- `models/record.py`: a wins-losses-ties tally.  All three fields are
required (no defaults). -/
structure Rec where
  wins : Int
  losses : Int
  ties : Int
deriving DecidableEq, Repr

/-- `models/player.py` -/
structure Player where
  id : String
  name : String
  position : String
deriving DecidableEq, Repr

/-- `models/roster.py` -/
structure Roster where
  starters : List Player
  bench : List Player
deriving DecidableEq, Repr

/-- `models/game.py`: one side of a game.  Points are Python floats,
modelled as exact rationals. -/
structure TeamGameData where
  points : Rat
  managers : List String
  roster : Roster
deriving DecidableEq, Repr

/-- `models/game.py`: a game is a list of team sides. -/
structure Game where
  team_data : List TeamGameData
deriving DecidableEq, Repr

/-! ## Collector data model (`league_history_collector/collectors/models`) -/

/-- `collectors/models/week.py` -/
structure Week where
  games : List Game
deriving DecidableEq, Repr

/-- `collectors/models/season.py`: `FinalStanding`. -/
structure FinalStanding where
  rank : Option Int
deriving DecidableEq, Repr

/-- `collectors/models/season.py`: `RegularSeasonStanding`. -/
structure RegularSeasonStanding where
  rank : Int
  points_scored : Rat
  points_against : Rat
  record : Rec
deriving DecidableEq, Repr

/-- `collectors/models/season.py`: `ManagerStanding`. -/
structure ManagerStanding where
  final_standing : FinalStanding
  regular_season_standing : RegularSeasonStanding
deriving DecidableEq, Repr

/-- `collectors/models/draft.py`: `DraftPick`. -/
structure DraftPick where
  round : Int
  round_slot : Int
  overall_pick : Int
  player_id : String
  player_position : String
  manager_id : String
deriving DecidableEq, Repr

/-- `collectors/models/draft.py`: `Draft`. -/
structure Draft where
  drafts : List (List DraftPick)
deriving DecidableEq, Repr

/-- `collectors/models/season.py`: `Season`.  `league_id` and
`draft_results` are optional with default `None` and are excluded from the
serialized form when `None`. -/
structure Season where
  standings : List (String × ManagerStanding)
  weeks : List (Int × Week)
  league_id : Option Int := none
  draft_results : Option Draft := none
deriving DecidableEq, Repr

/-- `collectors/models/manager.py`: `Manager`. -/
structure Manager where
  name : String
  seasons : List Int
deriving DecidableEq, Repr

/-- `collectors/models/league.py`: `League`. -/
structure League where
  id : String
  managers : List (String × Manager)
  seasons : List (Int × Season)
deriving DecidableEq, Repr

/-! ## Transformer configuration (`transformer/_impl.py`) -/

/-- `transformer/_impl.py`, class `Configuration`.  The three map-typed
fields default to empty dicts. -/
structure Configuration where
  num_playoff_teams : Int
  playoff_weeks : List Int
  num_playoff_teams_by_season : List (Int × Int) := []
  playoff_teams : List (Int × List String) := []
  playoff_weeks_by_season : List (Int × List Int) := []
deriving DecidableEq, Repr

/-- `Configuration.is_in_playoffs` (`transformer/_impl.py` lines 41-56):
look up the explicit team list for the season (default empty); a listed
manager is in the playoffs; any other manager is out whenever the list is
non-empty; otherwise use the rank cutoff, taking the per-season override of
`num_playoff_teams` when present. -/
def Configuration.is_in_playoffs (c : Configuration) (manager_name : String)
    (rank season : Int) : Bool :=
  let pt := (dget c.playoff_teams season).getD []
  if manager_name ∈ pt then true
  else if pt.length > 0 then false
  else rank ≤ (dget c.num_playoff_teams_by_season season).getD c.num_playoff_teams

/-- Reference definition written from the claim's words: if the explicit
`playoff_teams` entry for the season is non-empty, membership in that list
is the answer; otherwise compare the rank against the effective cutoff
(per-season override when present, else the default). -/
def is_in_playoffs_ref (c : Configuration) (manager_name : String)
    (rank season : Int) : Bool :=
  let pt := (dget c.playoff_teams season).getD []
  if pt ≠ [] then decide (manager_name ∈ pt)
  else decide (rank ≤ (dget c.num_playoff_teams_by_season season).getD c.num_playoff_teams)

/-- `Configuration.playoff_weeks_for_season` (`transformer/_impl.py`). -/
def Configuration.playoff_weeks_for_season (c : Configuration) (year : Int) :
    List Int :=
  (dget c.playoff_weeks_by_season year).getD c.playoff_weeks

/-! ## Transformer derived-view models (`transformer/models`) -/

/-- `transformer/models/manager.py`, `ManagerSeason`: all eleven fields are
required (no defaults). -/
structure ManagerSeason where
  year : Int
  final_standing : Int
  made_playoffs : Bool
  playoff_games : List Int
  playoff_record : Rec
  consolation_games : List Int
  regular_season_games : List Int
  regular_season_points_against : Rat
  regular_season_points_scored : Rat
  regular_season_record : Rec
  regular_season_standing : Int
deriving DecidableEq, Repr

/-- `transformer/models/season.py`, the per-season derived view.  (The
source line `playoff_teams = List[str]` is a class attribute, not a
dataclass field, and is omitted.) -/
structure SeasonView where
  regular_season_standings : List (String × Int)
  regular_season_records : List (String × Rec)
  regular_season_points_for : List (String × Rat)
  regular_season_points_against : List (String × Rat)
  final_standings : List (String × Int)
deriving DecidableEq, Repr

/-- Modelled from the spec: `transformer/models/league.py` is absent from
the source snapshot.  Per the spec, `LeagueSummary` holds league-wide
totals (champions by year, seasons played per manager, cumulative records,
cumulative points); `Transformer.__init__` constructs it from empty dicts
and `transform()` never writes it, so only the all-empty value is ever
produced. -/
structure LeagueSummary where
  champions : List (Int × String) := []
  seasons_played : List (String × Int) := []
  cumulative_records : List (String × Rec) := []
  cumulative_points : List (String × Rat) := []
deriving DecidableEq, Repr

/-- The `Games` view: modelled from the spec (`transformer/models/game.py`
is absent from the source snapshot): a mapping year -> week -> `Game`.
`Games.from_dict` on a dict whose leaves are already `Game` objects returns
them unchanged, so the view's content is exactly the dict built by
`Transformer._populate_h2h_and_games_for_season`. -/
abbrev GamesView := List (Int × List (Int × Game))

/-- The `HeadToHead` view (`transformer/models/h2h.py`): manager name ->
opponent name -> list of (season, week) occurrences. -/
abbrev H2H := List (String × List (String × List (Int × Int)))

/-- Lookup of `matchups[a][b]`; `none` when either key is absent. -/
def h2h_get (m : H2H) (a b : String) : Option (List (Int × Int)) :=
  match dget m a with
  | some inner => dget inner b
  | none => none

/-! ## Transformer (`transformer/_impl.py`) -/

/-- `Transformer._get_name_for_manager_id`: `self._data.managers[team_id].name`,
a KeyError when the id is not a manager key. -/
def get_name_for_manager_id (d : League) (team_id : String) :
    Except String String :=
  match dget d.managers team_id with
  | some m => Except.ok m.name
  | none => Except.error "KeyError: managers"

/-- The `TeamGameData(...)` built inside
`Transformer._populate_h2h_and_games_for_season`: same points and roster,
raw manager ids translated to names. -/
def translate_team_data (d : League) (td : TeamGameData) :
    Except String TeamGameData := do
  let names ← td.managers.mapM (get_name_for_manager_id d)
  pure { points := td.points, managers := names, roster := td.roster }

/-- The name-translated copy of a game stored into the games view. -/
def translate_game (d : League) (g : Game) : Except String Game := do
  let tds ← g.team_data.mapM (translate_team_data d)
  pure ⟨tds⟩

/-- `head_to_head_result["matchups"][a][b].append(p)`: both keys must be
present (KeyError otherwise); on success the stored list is extended. -/
def h2h_append (m : H2H) (a b : String) (p : Int × Int) : Except String H2H :=
  match dget m a with
  | none => Except.error "KeyError: head-to-head matchups"
  | some inner =>
    match dget inner b with
    | none => Except.error "KeyError: head-to-head matchups"
    | some l => Except.ok (dinsert m a (dinsert inner b (l ++ [p])))

/-- One game of `Transformer._populate_h2h_and_games_for_season` (lines
251-283).  In source order: the name-translated copy is stored at
`games_result["games"][year][week_num]` (overwriting any previous game of
the same week); then a game without exactly two sides raises ValueError;
then for every pair of a raw manager id of side one and a raw manager id of
side two, `(year, week_num)` is appended to `matchups[first][second]` and
`matchups[second][first]` — note that the source indexes the name-keyed
matchups ledger with the raw ids here. -/
def process_game (d : League) (year week_num : Int) (acc : GamesView × H2H)
    (game : Game) : Except String (GamesView × H2H) := do
  let tg ← translate_game d game
  let games1 := dmodify acc.1 year (fun wk => dinsert wk week_num tg)
  match game.team_data with
  | [td0, td1] => do
    let h ← td0.managers.foldlM
      (fun h first =>
        td1.managers.foldlM
          (fun h second => do
            let h1 ← h2h_append h first second (year, week_num)
            h2h_append h1 second first (year, week_num))
          h)
      acc.2
    pure (games1, h)
  | _ => Except.error "ValueError: Amount of team data present is not two"

/-- One week of `Transformer._populate_h2h_and_games_for_season`. -/
def process_week (d : League) (year : Int) (acc : GamesView × H2H)
    (p : Int × Week) : Except String (GamesView × H2H) :=
  p.2.games.foldlM (process_game d year p.1) acc

/-- One season: `games_result["games"][year] = {}` then every week. -/
def process_season (d : League) (acc : GamesView × H2H) (p : Int × Season) :
    Except String (GamesView × H2H) :=
  p.2.weeks.foldlM (process_week d p.1) (dinsert acc.1 p.1 [], acc.2)

/-- `Transformer._set_games_and_h2h`: initialize the matchup ledger with an
empty occurrence list for every ordered pair of manager names, then walk
every season. -/
def set_games_and_h2h (d : League) : Except String (GamesView × H2H) :=
  let names := d.managers.map (fun p => p.2.name)
  let inner := names.foldl (fun acc n => dinsert acc n ([] : List (Int × Int))) []
  let init_h2h := names.foldl (fun acc n => dinsert acc n inner) []
  d.seasons.foldlM (process_season d) ([], init_h2h)

/-- One standings entry of `Transformer._populate_manager_results` (lines
299-318).  The manager name is looked up (KeyError when the standings key
is not a manager id); `made_playoffs` and the playoff weeks are computed;
then the entry literal evaluates `shared_models.Record()` — `Record`
(`models/record.py`) has three required fields and no defaults, so this
call raises TypeError before any entry is stored.  The accumulator is the
`managers_result` dict whose season entries are still the empty
placeholder dicts written by `Transformer._set_managers`. -/
def populate_manager_results_step (cfg : Configuration) (d : League)
    (year : Int) (acc : List (String × List (Int × Unit)))
    (p : String × ManagerStanding) :
    Except String (List (String × List (Int × Unit))) := do
  let manager_name ← get_name_for_manager_id d p.1
  let _made_playoffs :=
    cfg.is_in_playoffs manager_name p.2.regular_season_standing.rank year
  let _playoff_weeks := cfg.playoff_weeks_for_season year
  let _unused := acc
  Except.error
    "TypeError: Record() missing 3 required positional arguments: wins, losses, and ties"

/-- Decoding one manager's season map in `Managers.from_dict`
(dataclasses_json semantics): every stored entry is still the empty
placeholder dict `\x7b\x7d`, and `ManagerSeason` has required fields with no
defaults, so decoding any entry raises on the first missing field. -/
def decode_manager_seasons (entries : List (Int × Unit)) :
    Except String (List (Int × ManagerSeason)) :=
  match entries with
  | [] => Except.ok []
  | _ :: _ => Except.error "KeyError: year"

/-- `Transformer._set_managers` (lines 285-297): build the skeleton
`managers_result` (one empty season entry per year of each manager's season
list), run `_populate_manager_results` for every season's standings, then
decode through `Managers.from_dict`. -/
def set_managers (cfg : Configuration) (d : League) :
    Except String (List (String × List (Int × ManagerSeason))) := do
  let init := d.managers.foldl
    (fun acc p =>
      dinsert acc p.2.name
        (p.2.seasons.foldl (fun inner y => dinsert inner y ()) []))
    ([] : List (String × List (Int × Unit)))
  let filled ← d.seasons.foldlM
    (fun acc p =>
      p.2.standings.foldlM (populate_manager_results_step cfg d p.1) acc)
    init
  filled.foldlM
    (fun acc p => do
      let decoded ← decode_manager_seasons p.2
      pure (dinsert acc p.1 decoded))
    ([] : List (String × List (Int × ManagerSeason)))

/-- The transformer object's fields after `__init__` and across
`transform()`.  `data` is the deep copy of the input league (value
semantics); the five view fields start empty; `transformed` is the
state-machine flag. -/
structure TransformerState where
  config : Configuration
  data : League
  league_summary : LeagueSummary
  games : GamesView
  head_to_head : H2H
  seasons_view : List (Int × SeasonView)
  managers_view : List (String × List (Int × ManagerSeason))
  transformed : Bool
deriving DecidableEq, Repr

/-- One re-keying iteration of `Transformer.__init__`: compute the resulting
name for this manager entry; a name already seen raises RuntimeError;
otherwise it is recorded in `seen_names` and the renamed `Manager` is
stored under the manager id. -/
def rename_step (new_name_of : String × Manager → String)
    (st : List (String × String) × List (String × Manager))
    (p : String × Manager) :
    Except String (List (String × String) × List (String × Manager)) :=
  let new_name := new_name_of p
  if (dget st.1 new_name).isSome then
    Except.error "RuntimeError: at least two managers have the same name"
  else
    Except.ok (dinsert st.1 new_name p.1,
      dinsert st.2 p.1 (Manager.mk new_name p.2.seasons))

/-- One pass-through validation iteration of `Transformer.__init__`: a
manager name already seen raises RuntimeError; otherwise it is recorded. -/
def seen_step (seen : List (String × String)) (p : String × Manager) :
    Except String (List (String × String)) :=
  if (dget seen p.2.name).isSome then
    Except.error "RuntimeError: at least two managers have the same name"
  else
    Except.ok (dinsert seen p.2.name p.1)

/-- The resulting display name of each manager entry: the anonymizer
applied to the name when supplied, else the id-mapping applied to the id
when supplied, else the unchanged name.  (Written in the source's branch
order; when both functions are supplied the constructor rejects before any
renaming.) -/
def resulting_names (league_data : League)
    (anonymizer : Option (String → String))
    (manager_id_mapping : Option (String → String)) : List String :=
  match anonymizer with
  | some f => league_data.managers.map (fun p => f p.2.name)
  | none =>
    match manager_id_mapping with
    | some f => league_data.managers.map (fun p => f p.1)
    | none => league_data.managers.map (fun p => p.2.name)

/-- `Transformer.__init__` (lines 72-140).  Rejects supplying both
transforms; re-keys manager names through the anonymizer (applied to the
name) or the manager-id mapping (applied to the id), or passes names
through; in each branch a second manager reaching an already-seen resulting
name raises RuntimeError.  On success the view fields start empty and
`transformed` is false. -/
def transformer_init (config : Configuration) (league_data : League)
    (anonymizer : Option (String → String))
    (manager_id_mapping : Option (String → String)) :
    Except String TransformerState := do
  if anonymizer.isSome && manager_id_mapping.isSome then
    Except.error "ValueError: anonymizer and manager_id_mapping cannot both be provided"
  else do
    let data := league_data
    let managers2 ←
      match anonymizer with
      | some f =>
        (data.managers.foldlM (rename_step (fun p => f p.2.name)) ([], [])).map
          Prod.snd
      | none =>
        match manager_id_mapping with
        | some f =>
          (data.managers.foldlM (rename_step (fun p => f p.1)) ([], [])).map
            Prod.snd
        | none => do
          let _ ← data.managers.foldlM seen_step []
          pure data.managers
    pure
      { config := config
        data := { data with managers := managers2 }
        league_summary := {}
        games := []
        head_to_head := []
        seasons_view := []
        managers_view := []
        transformed := false }

/-- `Transformer.transform` (lines 202-215).  A second call is a logged
no-op.  Otherwise `_set_games_and_h2h` runs (assigning the games and
head-to-head views only on its full success), then `_set_managers`, then
the transformed flag is set.  The returned pair is the object state after
the call together with the raised error, if any. -/
def TransformerState.transform (t : TransformerState) :
    TransformerState × Option String :=
  if t.transformed then (t, none)
  else
    match set_games_and_h2h t.data with
    | Except.error e => (t, some e)
    | Except.ok gh =>
      let t1 := { t with games := gh.1, head_to_head := gh.2 }
      match set_managers t.config t.data with
      | Except.error e => (t1, some e)
      | Except.ok mv => ({ t1 with managers_view := mv, transformed := true }, none)

/-- The `league_summary` property: raises until `transform()` has run. -/
def TransformerState.league_summary_prop (t : TransformerState) :
    Except String LeagueSummary :=
  if t.transformed then Except.ok t.league_summary
  else Except.error "League summary has not been computed yet, please call transform()."

/-- The `games` property: raises until `transform()` has run. -/
def TransformerState.games_prop (t : TransformerState) :
    Except String GamesView :=
  if t.transformed then Except.ok t.games
  else Except.error "Games has not been computed yet, please call transform()."

/-- The `head_to_head` property: raises until `transform()` has run. -/
def TransformerState.head_to_head_prop (t : TransformerState) :
    Except String H2H :=
  if t.transformed then Except.ok t.head_to_head
  else Except.error "Head to head results have not been computed yet, please call transform()."

/-- The `seasons` property: raises until `transform()` has run. -/
def TransformerState.seasons_prop (t : TransformerState) :
    Except String (List (Int × SeasonView)) :=
  if t.transformed then Except.ok t.seasons_view
  else Except.error "Seasons not been computed yet, please call transform()."

/-- The `managers` property: raises until `transform()` has run. -/
def TransformerState.managers_prop (t : TransformerState) :
    Except String (List (String × List (Int × ManagerSeason))) :=
  if t.transformed then Except.ok t.managers_view
  else Except.error "Managers has not been computed yet, please call transform()."

/-! ## Monadic fold helper lemmas -/

theorem except_bind_ok {α β : Type} (a : α) (f : α → Except String β) :
    (Except.ok a >>= f) = f a := rfl

theorem except_bind_error {α β : Type} (e : String) (f : α → Except String β) :
    ((Except.error e : Except String α) >>= f) = Except.error e := rfl

/-- An invariant preserved by every successful step of a monadic fold holds
for the result of a successful fold. -/
theorem foldlM_ok_inv {α β : Type} (P : β → Prop) {f : β → α → Except String β}
    (hstep : ∀ b a b', P b → f b a = Except.ok b' → P b') :
    ∀ {xs : List α} {b b' : β},
      P b → List.foldlM f b xs = Except.ok b' → P b' := by
  intro xs
  induction xs with
  | nil =>
    intro b b' hP h
    simp only [List.foldlM_nil] at h
    cases h
    exact hP
  | cons a l ih =>
    intro b b' hP h
    rw [List.foldlM_cons] at h
    cases hfa : f b a with
    | error e => rw [hfa] at h; exact absurd h (by simp [except_bind_error])
    | ok b1 =>
      rw [hfa] at h
      rw [except_bind_ok] at h
      exact ih (hstep b a b1 hP hfa) h

/-- Every element of a successfully folded list was stepped successfully
from some accumulator. -/
theorem foldlM_ok_mem {α β : Type} {f : β → α → Except String β} :
    ∀ {xs : List α} {b b' : β}, List.foldlM f b xs = Except.ok b' →
      ∀ a ∈ xs, ∃ c c', f c a = Except.ok c' := by
  intro xs
  induction xs with
  | nil =>
    intro b b' _ a ha
    exact absurd ha (List.not_mem_nil a)
  | cons x l ih =>
    intro b b' h a ha
    rw [List.foldlM_cons] at h
    cases hfx : f b x with
    | error e => rw [hfx] at h; exact absurd h (by simp [except_bind_error])
    | ok b1 =>
      rw [hfx] at h
      rw [except_bind_ok] at h
      rcases List.mem_cons.mp ha with ha | ha
      · exact ha ▸ ⟨b, b1, hfx⟩
      · exact ih h a ha

/-! ## Claim C3 — `Configuration.is_in_playoffs` matches its reference -/

/-- C3: `Configuration.is_in_playoffs(manager, rank, season)` coincides,
for every manager, rank and season, with the reference definition: when the
explicit `playoff_teams` entry for the season is non-empty, the result is
membership in that list (false for every unlisted manager regardless of
rank); otherwise the result is `rank <= cutoff(season)` where the cutoff is
the per-season override when present and `num_playoff_teams` otherwise. -/
theorem c3_is_in_playoffs_matches_reference (c : Configuration) (m : String)
    (rank season : Int) :
    c.is_in_playoffs m rank season = is_in_playoffs_ref c m rank season := by
  unfold Configuration.is_in_playoffs is_in_playoffs_ref
  rcases h : (dget c.playoff_teams season).getD [] with _ | ⟨a, l⟩
  · simp
  · by_cases hm : m ∈ a :: l <;> simp [hm]

/-! ## Claim C7 — name-collision detection at construction -/

theorem rename_fold_ok_iff (g : String × Manager → String) :
    ∀ (l : List (String × Manager))
      (st : List (String × String) × List (String × Manager)),
      (∃ r, List.foldlM (rename_step g) st l = Except.ok r) ↔
        ((l.map g).Nodup ∧ ∀ n ∈ l.map g, dget st.1 n = none) := by
  intro l
  induction l with
  | nil =>
    intro st
    simp only [List.foldlM_nil, List.map_nil]
    constructor
    · intro _
      exact ⟨List.nodup_nil, by intro n hn; cases hn⟩
    · intro _
      exact ⟨st, rfl⟩
  | cons p l ih =>
    intro st
    rw [List.map_cons, List.foldlM_cons]
    by_cases hseen : (dget st.1 (g p)).isSome
    · have hstep : rename_step g st p =
          Except.error "RuntimeError: at least two managers have the same name" := by
        simp [rename_step, hseen]
      rw [hstep, except_bind_error]
      constructor
      · rintro ⟨r, hr⟩
        exact absurd hr (by simp)
      · rintro ⟨-, hnone⟩
        have h0 := hnone (g p) (List.mem_cons_self _ _)
        rw [h0] at hseen
        simp at hseen
    · have hnone0 : dget st.1 (g p) = none := by
        cases h : dget st.1 (g p)
        · rfl
        · rw [h] at hseen; simp at hseen
      have hstep : rename_step g st p = Except.ok
          (dinsert st.1 (g p) p.1,
            dinsert st.2 p.1 (Manager.mk (g p) p.2.seasons)) := by
        simp [rename_step, hseen]
      rw [hstep, except_bind_ok, ih]
      constructor
      · rintro ⟨hnd, hnone⟩
        have hnotmem : g p ∉ l.map g := by
          intro hmem
          have h1 := hnone (g p) hmem
          rw [dget_dinsert_eq] at h1
          exact Option.noConfusion h1
        refine ⟨List.nodup_cons.mpr ⟨hnotmem, hnd⟩, ?_⟩
        intro n hn
        rcases List.mem_cons.mp hn with rfl | hn2
        · exact hnone0
        · have hne : g p ≠ n := fun hc => hnotmem (hc ▸ hn2)
          have h1 := hnone n hn2
          rw [dget_dinsert_ne st.1 (g p) n p.1 hne] at h1
          exact h1
      · rintro ⟨hnd, hnone⟩
        obtain ⟨hnotmem, hnd2⟩ := List.nodup_cons.mp hnd
        refine ⟨hnd2, ?_⟩
        intro n hn
        have hne : g p ≠ n := fun hc => hnotmem (hc ▸ hn)
        rw [dget_dinsert_ne st.1 (g p) n p.1 hne]
        exact hnone n (List.mem_cons_of_mem _ hn)

theorem seen_fold_ok_iff :
    ∀ (l : List (String × Manager)) (st : List (String × String)),
      (∃ r, List.foldlM seen_step st l = Except.ok r) ↔
        ((l.map (fun p => p.2.name)).Nodup ∧
          ∀ n ∈ l.map (fun p => p.2.name), dget st n = none) := by
  intro l
  induction l with
  | nil =>
    intro st
    simp only [List.foldlM_nil, List.map_nil]
    constructor
    · intro _
      exact ⟨List.nodup_nil, by intro n hn; cases hn⟩
    · intro _
      exact ⟨st, rfl⟩
  | cons p l ih =>
    intro st
    rw [List.map_cons, List.foldlM_cons]
    by_cases hseen : (dget st p.2.name).isSome
    · have hstep : seen_step st p =
          Except.error "RuntimeError: at least two managers have the same name" := by
        simp [seen_step, hseen]
      rw [hstep, except_bind_error]
      constructor
      · rintro ⟨r, hr⟩
        exact absurd hr (by simp)
      · rintro ⟨-, hnone⟩
        have h0 := hnone p.2.name (List.mem_cons_self _ _)
        rw [h0] at hseen
        simp at hseen
    · have hnone0 : dget st p.2.name = none := by
        cases h : dget st p.2.name
        · rfl
        · rw [h] at hseen; simp at hseen
      have hstep : seen_step st p = Except.ok (dinsert st p.2.name p.1) := by
        simp [seen_step, hseen]
      rw [hstep, except_bind_ok, ih]
      constructor
      · rintro ⟨hnd, hnone⟩
        have hnotmem : p.2.name ∉ l.map (fun q => q.2.name) := by
          intro hmem
          have h1 := hnone p.2.name hmem
          rw [dget_dinsert_eq] at h1
          exact Option.noConfusion h1
        refine ⟨List.nodup_cons.mpr ⟨hnotmem, hnd⟩, ?_⟩
        intro n hn
        rcases List.mem_cons.mp hn with rfl | hn2
        · exact hnone0
        · have hne : p.2.name ≠ n := fun hc => hnotmem (hc ▸ hn2)
          have h1 := hnone n hn2
          rw [dget_dinsert_ne st p.2.name n p.1 hne] at h1
          exact h1
      · rintro ⟨hnd, hnone⟩
        obtain ⟨hnotmem, hnd2⟩ := List.nodup_cons.mp hnd
        refine ⟨hnd2, ?_⟩
        intro n hn
        have hne : p.2.name ≠ n := fun hc => hnotmem (hc ▸ hn)
        rw [dget_dinsert_ne st p.2.name n p.1 hne]
        exact hnone n (List.mem_cons_of_mem _ hn)

/-- C7: constructing a Transformer succeeds exactly when at most one of the
anonymizer and the manager-id mapping is supplied and the resulting manager
names (anonymized names, mapped ids, or pass-through names respectively)
are pairwise distinct; any collision of resulting names — in any of the
three branches — raises during construction, before `transform()` can
run. -/
theorem c7_name_collision_detection (c : Configuration) (l : League)
    (a mm : Option (String → String)) :
    (∃ t, transformer_init c l a mm = Except.ok t) ↔
      (¬(a.isSome ∧ mm.isSome) ∧ (resulting_names l a mm).Nodup) := by
  match a, mm with
  | some f, some g =>
    simp [transformer_init]
  | some f, none =>
    have key := rename_fold_ok_iff (fun p => f p.2.name) l.managers ([], [])
    simp only [transformer_init, Option.isSome_some, Option.isSome_none,
      Bool.and_false, Bool.false_eq_true, if_false, resulting_names]
    constructor
    · rintro ⟨t, ht⟩
      simp only [bind, Except.bind] at ht
      rcases hf : List.foldlM (rename_step fun p => f p.2.name) ([], [])
          l.managers with e | r
      · rw [hf] at ht
        simp [Except.map] at ht
      · refine ⟨by simp, ?_⟩
        exact (key.mp ⟨r, hf⟩).1
    · rintro ⟨-, hnd⟩
      rcases key.mpr ⟨hnd, by intro n hn; rfl⟩ with ⟨r, hf⟩
      refine ⟨TransformerState.mk c ({ l with managers := r.2 })
        (LeagueSummary.mk [] [] [] []) [] [] [] [] false, ?_⟩
      simp only [bind, Except.bind, hf, Except.map]
      rfl
  | none, some g =>
    have key := rename_fold_ok_iff (fun p => g p.1) l.managers ([], [])
    simp only [transformer_init, Option.isSome_some, Option.isSome_none,
      Bool.false_and, Bool.false_eq_true, if_false, resulting_names]
    constructor
    · rintro ⟨t, ht⟩
      simp only [bind, Except.bind] at ht
      rcases hf : List.foldlM (rename_step fun p => g p.1) ([], [])
          l.managers with e | r
      · rw [hf] at ht
        simp [Except.map] at ht
      · refine ⟨by simp, ?_⟩
        exact (key.mp ⟨r, hf⟩).1
    · rintro ⟨-, hnd⟩
      rcases key.mpr ⟨hnd, by intro n hn; rfl⟩ with ⟨r, hf⟩
      refine ⟨TransformerState.mk c ({ l with managers := r.2 })
        (LeagueSummary.mk [] [] [] []) [] [] [] [] false, ?_⟩
      simp only [bind, Except.bind, hf, Except.map]
      rfl
  | none, none =>
    have key := seen_fold_ok_iff l.managers []
    simp only [transformer_init, Option.isSome_none, Bool.and_self,
      Bool.false_eq_true, if_false, resulting_names]
    constructor
    · rintro ⟨t, ht⟩
      simp only [bind, Except.bind] at ht
      rcases hf : List.foldlM seen_step [] l.managers with e | r
      · rw [hf] at ht
        simp at ht
      · refine ⟨by simp, ?_⟩
        exact (key.mp ⟨r, hf⟩).1
    · rintro ⟨-, hnd⟩
      rcases key.mpr ⟨hnd, by intro n hn; rfl⟩ with ⟨r, hf⟩
      refine ⟨TransformerState.mk c ({ l with managers := l.managers })
        (LeagueSummary.mk [] [] [] []) [] [] [] [] false, ?_⟩
      simp only [bind, Except.bind, hf]
      rfl

/-! ## Claim C2 — a game without exactly two sides aborts `transform()` -/

/-- Every successfully constructed transformer state is the fresh record:
configuration stored, league data with possibly re-keyed managers, empty
views, `transformed` false. -/
theorem transformer_init_ok_shape {c : Configuration} {l : League}
    {a mm : Option (String → String)} {t : TransformerState}
    (h : transformer_init c l a mm = Except.ok t) :
    ∃ m2, t = TransformerState.mk c ({ l with managers := m2 })
      (LeagueSummary.mk [] [] [] []) [] [] [] [] false := by
  rcases a with _ | f
  · rcases mm with _ | g
    · simp only [transformer_init, Option.isSome_none, Bool.and_self,
        Bool.false_eq_true, if_false] at h
      cases hf : List.foldlM seen_step [] l.managers with
      | error e =>
        rw [hf] at h
        simp only [bind, Except.bind] at h
        exact absurd h (by simp)
      | ok r =>
        rw [hf] at h
        simp only [bind, Except.bind, pure, Except.pure] at h
        exact ⟨l.managers, (Except.ok.injEq _ _).mp h |>.symm⟩
    · simp only [transformer_init, Option.isSome_none, Option.isSome_some,
        Bool.false_and, Bool.false_eq_true, if_false] at h
      cases hf : List.foldlM (rename_step fun p => g p.1) ([], []) l.managers with
      | error e =>
        rw [hf] at h
        simp only [bind, Except.bind, Except.map] at h
        exact absurd h (by simp)
      | ok r =>
        rw [hf] at h
        simp only [bind, Except.bind, Except.map, pure, Except.pure] at h
        exact ⟨r.2, (Except.ok.injEq _ _).mp h |>.symm⟩
  · rcases mm with _ | g
    · simp only [transformer_init, Option.isSome_none, Option.isSome_some,
        Bool.and_false, Bool.false_eq_true, if_false] at h
      cases hf : List.foldlM (rename_step fun p => f p.2.name) ([], [])
          l.managers with
      | error e =>
        rw [hf] at h
        simp only [bind, Except.bind, Except.map] at h
        exact absurd h (by simp)
      | ok r =>
        rw [hf] at h
        simp only [bind, Except.bind, Except.map, pure, Except.pure] at h
        exact ⟨r.2, (Except.ok.injEq _ _).mp h |>.symm⟩
    · simp only [transformer_init, Option.isSome_some, Bool.and_self] at h
      exact absurd h (by simp)

/-- A successfully processed game has exactly two team-data sides (the
ValueError branch of `_populate_h2h_and_games_for_season`). -/
theorem process_game_ok_two_sides {d : League} {y w : Int}
    {acc acc' : GamesView × H2H} {g : Game}
    (h : process_game d y w acc g = Except.ok acc') :
    g.team_data.length = 2 := by
  unfold process_game at h
  cases htr : translate_game d g with
  | error e =>
    rw [htr] at h
    simp only [bind, Except.bind] at h
    exact absurd h (by simp)
  | ok tg =>
    rw [htr] at h
    simp only [bind, Except.bind] at h
    rcases hg : g.team_data with _ | ⟨t0, _ | ⟨t1, _ | ⟨t2, rest⟩⟩⟩ <;>
      rw [hg] at h
    · exact absurd h (by simp)
    · exact absurd h (by simp)
    · rfl
    · exact absurd h (by simp)

/-- If the games and head-to-head pass succeeds, every game of every week
of every season of the input league has exactly two sides. -/
theorem set_games_ok_two_sides {d : League} {r : GamesView × H2H}
    (h : set_games_and_h2h d = Except.ok r) :
    ∀ y s, (y, s) ∈ d.seasons → ∀ w wk, (w, wk) ∈ s.weeks →
      ∀ g ∈ wk.games, g.team_data.length = 2 := by
  intro y s hs w wk hw g hg
  unfold set_games_and_h2h at h
  obtain ⟨c1, c1', hseason⟩ := foldlM_ok_mem h (y, s) hs
  unfold process_season at hseason
  obtain ⟨c2, c2', hweek⟩ := foldlM_ok_mem hseason (w, wk) hw
  unfold process_week at hweek
  obtain ⟨c3, c3', hgame⟩ := foldlM_ok_mem hweek g hg
  exact process_game_ok_two_sides hgame

/-- C2: for every constructed transformer over a league containing at least
one game whose team-data sequence does not have exactly two entries,
`transform()` raises instead of completing, the object state is unchanged,
and every derived-view accessor (league summary, games, head-to-head,
seasons, managers) still raises its not-yet-computed error, so no partial
derived view is readable. -/
theorem c2_bad_game_aborts (c : Configuration) (l : League)
    (a mm : Option (String → String)) (t : TransformerState)
    (hinit : transformer_init c l a mm = Except.ok t)
    (y : Int) (s : Season) (hs : (y, s) ∈ l.seasons)
    (w : Int) (wk : Week) (hw : (w, wk) ∈ s.weeks)
    (g : Game) (hg : g ∈ wk.games) (hbad : g.team_data.length ≠ 2) :
    (∃ e, t.transform.2 = some e) ∧ t.transform.1 = t ∧
      (∃ e, t.league_summary_prop = Except.error e) ∧
      (∃ e, t.games_prop = Except.error e) ∧
      (∃ e, t.head_to_head_prop = Except.error e) ∧
      (∃ e, t.seasons_prop = Except.error e) ∧
      (∃ e, t.managers_prop = Except.error e) := by
  obtain ⟨m2, rfl⟩ := transformer_init_ok_shape hinit
  cases hrun : set_games_and_h2h ({ l with managers := m2 } : League) with
  | ok r =>
    exact absurd (set_games_ok_two_sides hrun y s hs w wk hw g hg) hbad
  | error e =>
    refine ⟨⟨e, ?_⟩, ?_, ⟨_, rfl⟩, ⟨_, rfl⟩, ⟨_, rfl⟩, ⟨_, rfl⟩, ⟨_, rfl⟩⟩
    · unfold TransformerState.transform
      simp [hrun]
    · unfold TransformerState.transform
      simp [hrun]

/-! ## Concrete scenario leagues -/

/-- A concrete configuration: 4 playoff teams, playoff weeks 15 and 16. -/
def config0 : Configuration := ⟨4, [15, 16], [], [], []⟩

/-- An empty roster. -/
def roster0 : Roster := ⟨[], []⟩

/-- The spec scenario game: 100 points for manager id 1 against 90 points
for manager id 2. -/
def c1_game : Game := ⟨[⟨100, ["1"], roster0⟩, ⟨90, ["2"], roster0⟩]⟩

/-- The spec scenario league: Alice under id 1, Bob under id 2, season 2020
with week 1 holding the single game. -/
def c1_league : League :=
  ⟨"league", [("1", ⟨"Alice", []⟩), ("2", ⟨"Bob", []⟩)],
    [(2020, ⟨[], [(1, ⟨[c1_game]⟩)], none, none⟩)]⟩

/-- The transformer state constructed over the spec scenario league. -/
def c1_t : TransformerState :=
  TransformerState.mk config0 ({ c1_league with managers := c1_league.managers })
    (LeagueSummary.mk [] [] [] []) [] [] [] [] false

/-- A game with a single team-data side. -/
def c2_game : Game := ⟨[⟨100, ["1"], roster0⟩]⟩

/-- The week holding only the one-sided game. -/
def c2_week : Week := ⟨[c2_game]⟩

/-- The season holding only the one-sided game. -/
def c2_season : Season := ⟨[], [(1, c2_week)], none, none⟩

/-- A league whose only game has a single team-data side. -/
def c2_league : League :=
  ⟨"league", [("1", ⟨"Alice", []⟩)], [(2020, c2_season)]⟩

/-- The transformer state constructed over `c2_league`. -/
def c2_t : TransformerState :=
  TransformerState.mk config0 ({ c2_league with managers := c2_league.managers })
    (LeagueSummary.mk [] [] [] []) [] [] [] [] false

/-- A season with a non-empty standings map (rank 1, 100 points for, 90
against, record 1-0-0) and no games. -/
def c5_season : Season :=
  ⟨[("1", ⟨⟨none⟩, ⟨1, 100, 90, ⟨1, 0, 0⟩⟩⟩)], [], none, none⟩

/-- See `c5_season`. -/
def c5_league : League :=
  ⟨"league", [("1", ⟨"Alice", [2020]⟩)], [(2020, c5_season)]⟩

/-- The transformer state constructed over `c5_league`. -/
def c5_t : TransformerState :=
  TransformerState.mk config0 ({ c5_league with managers := c5_league.managers })
    (LeagueSummary.mk [] [] [] []) [] [] [] [] false

/-- C2 witness: the concrete one-sided-game league is accepted by the
constructor, `transform()` raises, and every accessor still raises. -/
theorem c2_bad_game_aborts_witness :
    (∃ e, c2_t.transform.2 = some e) ∧ c2_t.transform.1 = c2_t ∧
      (∃ e, c2_t.league_summary_prop = Except.error e) ∧
      (∃ e, c2_t.games_prop = Except.error e) ∧
      (∃ e, c2_t.head_to_head_prop = Except.error e) ∧
      (∃ e, c2_t.seasons_prop = Except.error e) ∧
      (∃ e, c2_t.managers_prop = Except.error e) :=
  c2_bad_game_aborts config0 c2_league none none c2_t rfl
    2020 c2_season (by decide) 1 c2_week (by decide) c2_game (by decide)
    (by decide)

/-! ## Claim C1 — the spec scenario crashes in the head-to-head pass -/

/-- C1: on the spec scenario league (Alice under id 1, Bob under id 2, one
2020 week-1 game of 100 against 90 points), construction succeeds but
`transform()` does NOT complete: the head-to-head matchup ledger is keyed
by display names while `_populate_h2h_and_games_for_season` indexes it with
the raw manager ids of the untranslated game, so the first append raises
KeyError and the head-to-head view stays unreadable — the claimed
name-keyed occurrences are never recorded. -/
theorem c1_scenario_transform_raises :
    transformer_init config0 c1_league none none = Except.ok c1_t ∧
      c1_t.transform.2 = some "KeyError: head-to-head matchups" ∧
      c1_t.transform.1 = c1_t ∧
      (∃ e, c1_t.head_to_head_prop = Except.error e) := by
  exact ⟨rfl, rfl, rfl, ⟨_, rfl⟩⟩

/-! ## Claim C5 — the manager season summary pass crashes -/

/-- C5: a league whose games all (vacuously) have two sides but whose 2020
standings are non-empty is accepted by the constructor, yet `transform()`
raises in `_populate_manager_results`: the season entry literal calls
`Record()` with no arguments though `Record` has three required fields, so
no manager view carrying the standing's record/points/rank is ever
produced and the managers accessor still raises afterwards. -/
theorem c5_manager_summary_pass_crashes :
    transformer_init config0 c5_league none none = Except.ok c5_t ∧
      (∀ y s, (y, s) ∈ c5_league.seasons → ∀ w wk, (w, wk) ∈ s.weeks →
        ∀ g ∈ wk.games, g.team_data.length = 2) ∧
      c5_t.transform.2 =
        some "TypeError: Record() missing 3 required positional arguments: wins, losses, and ties" ∧
      (∃ e, (c5_t.transform.1).managers_prop = Except.error e) := by
  refine ⟨rfl, ?_, rfl, ⟨_, rfl⟩⟩
  intro y s hs w wk hw g hg
  have hs2 : s = c5_season :=
    ((Prod.mk.injEq _ _ _ _).mp (List.mem_singleton.mp hs)).2
  rw [hs2] at hw
  exact absurd hw (List.not_mem_nil _)

/-! ## Claim C6 — head-to-head symmetry -/

/-- The matchup ledger is symmetric: the slot for (a, b) — presence and
content — always equals the slot for (b, a). -/
def H2HSym (m : H2H) : Prop := ∀ a b, h2h_get m a b = h2h_get m b a

/-- A successful append touches exactly its own slot, extending it by the
appended pair. -/
theorem h2h_append_get {m m' : H2H} {f s : String} {p : Int × Int}
    (h : h2h_append m f s p = Except.ok m') (a b : String) :
    h2h_get m' a b =
      if a = f ∧ b = s then (h2h_get m a b).map (fun l => l ++ [p])
      else h2h_get m a b := by
  unfold h2h_append at h
  split at h
  · exact absurd h (by simp)
  · rename_i inner hf
    split at h
    · exact absurd h (by simp)
    rename_i l hs
    have hm' : dinsert m f (dinsert inner s (l ++ [p])) = m' :=
      (Except.ok.injEq _ _).mp h
    subst hm'
    by_cases ha : a = f
    · subst ha
      unfold h2h_get
      rw [dget_dinsert_eq]
      by_cases hb : b = s
      · subst hb
        simp [hf, hs, dget_dinsert_eq]
      · simp [hf, hb,
          dget_dinsert_ne inner s b (l ++ [p]) (fun hc => hb hc.symm)]
    · unfold h2h_get
      simp [ha, hf,
        dget_dinsert_ne m f a (dinsert inner s (l ++ [p])) (fun hc => ha hc.symm)]

/-- The paired append of `(year, week)` to `matchups[f][s]` and
`matchups[s][f]` preserves ledger symmetry. -/
theorem double_append_sym {m m' : H2H} {f s : String} {p : Int × Int}
    (hsym : H2HSym m)
    (h : (do
      let m1 ← h2h_append m f s p
      h2h_append m1 s f p) = Except.ok m') : H2HSym m' := by
  cases h1 : h2h_append m f s p with
  | error e => rw [h1] at h; exact absurd h (by simp [except_bind_error])
  | ok m1 =>
    rw [h1] at h
    rw [except_bind_ok] at h
    intro a b
    rw [h2h_append_get h a b, h2h_append_get h b a,
      h2h_append_get h1 a b, h2h_append_get h1 b a]
    have e1 : (b = s ∧ a = f) ↔ (a = f ∧ b = s) :=
      ⟨fun h0 => ⟨h0.2, h0.1⟩, fun h0 => ⟨h0.2, h0.1⟩⟩
    have e2 : (b = f ∧ a = s) ↔ (a = s ∧ b = f) :=
      ⟨fun h0 => ⟨h0.2, h0.1⟩, fun h0 => ⟨h0.2, h0.1⟩⟩
    simp only [e1, e2]
    by_cases c1 : a = f ∧ b = s <;> by_cases c2 : a = s ∧ b = f
    · simp only [if_pos c1, if_pos c2]
      rw [hsym a b]
    · simp only [if_pos c1, if_neg c2]
      rw [hsym a b]
    · simp only [if_neg c1, if_pos c2]
      rw [hsym a b]
    · simp only [if_neg c1, if_neg c2]
      exact hsym a b

/-- A successfully processed game preserves ledger symmetry. -/
theorem process_game_sym {d : League} {y w : Int}
    {acc acc' : GamesView × H2H} {game : Game}
    (hsym : H2HSym acc.2) (h : process_game d y w acc game = Except.ok acc') :
    H2HSym acc'.2 := by
  unfold process_game at h
  simp only [bind, Except.bind] at h
  split at h
  · exact absurd h (by simp)
  · split at h
    · rename_i td0 td1 hteam
      split at h
      · exact absurd h (by simp)
      · rename_i v hfold
        simp only [pure, Except.pure] at h
        have hv : acc'.2 = v := by
          have h2 := (Except.ok.injEq _ _).mp h
          rw [← h2]
        rw [hv]
        refine foldlM_ok_inv (fun x => H2HSym x) ?_ hsym hfold
        intro b0 first b1 hP hstep
        refine foldlM_ok_inv (fun x => H2HSym x) ?_ hP hstep
        intro c0 second c1 hPc hstepc
        exact double_append_sym hPc hstepc
    · exact absurd h (by simp)

/-- A successfully processed week preserves ledger symmetry. -/
theorem process_week_sym {d : League} {y : Int}
    {acc acc' : GamesView × H2H} {p : Int × Week}
    (hsym : H2HSym acc.2) (h : process_week d y acc p = Except.ok acc') :
    H2HSym acc'.2 := by
  unfold process_week at h
  refine foldlM_ok_inv (fun x => H2HSym x.2) ?_ hsym h
  intro b0 g b1 hP hstep
  exact process_game_sym hP hstep

/-- A successfully processed season preserves ledger symmetry. -/
theorem process_season_sym {d : League} {acc acc' : GamesView × H2H}
    {p : Int × Season}
    (hsym : H2HSym acc.2) (h : process_season d acc p = Except.ok acc') :
    H2HSym acc'.2 := by
  unfold process_season at h
  refine foldlM_ok_inv (fun x => H2HSym x.2) ?_
    (show H2HSym (dinsert acc.1 p.1 [], acc.2).2 from hsym) h
  intro b0 wkp b1 hP hstep
  exact process_week_sym hP hstep

/-- Lookup in the dict built by inserting `[]` under every name. -/
theorem dget_const_fold {names : List String}
    {start : List (String × List (Int × Int))} (b : String) :
    dget (names.foldl (fun acc n => dinsert acc n ([] : List (Int × Int))) start) b =
      if b ∈ names then some [] else dget start b := by
  induction names generalizing start with
  | nil => simp
  | cons n ns ih =>
    rw [List.foldl_cons, ih]
    by_cases hb : b ∈ ns
    · simp [hb]
    · by_cases hnb : n = b
      · subst hnb
        simp [hb, dget_dinsert_eq]
      · have hbn : ¬ b = n := fun hc => hnb hc.symm
        simp [hb, hbn, hnb, dget_dinsert_ne start n b [] hnb]

/-- Lookup in the outer ledger skeleton built by inserting the shared inner
dict under every name. -/
theorem dget_outer_fold {names : List String}
    {inner : List (String × List (Int × Int))}
    {start : H2H} (a : String) :
    dget (names.foldl (fun acc n => dinsert acc n inner) start) a =
      if a ∈ names then some inner else dget start a := by
  induction names generalizing start with
  | nil => simp
  | cons n ns ih =>
    rw [List.foldl_cons, ih]
    by_cases ha : a ∈ ns
    · simp [ha]
    · by_cases hna : n = a
      · subst hna
        simp [ha, dget_dinsert_eq]
      · have han : ¬ a = n := fun hc => hna hc.symm
        simp [ha, han, hna, dget_dinsert_ne start n a inner hna]

/-- The initial all-pairs matchup ledger is symmetric. -/
theorem init_h2h_sym (names : List String) :
    H2HSym (names.foldl
      (fun acc n =>
        dinsert acc n (names.foldl
          (fun acc2 n2 => dinsert acc2 n2 ([] : List (Int × Int))) []))
      []) := by
  intro a b
  unfold h2h_get
  rw [dget_outer_fold a, dget_outer_fold b]
  by_cases ha : a ∈ names <;> by_cases hb : b ∈ names <;>
    simp [ha, hb, dget_const_fold, dget]

/-- On success, the games and head-to-head pass returns a symmetric
ledger. -/
theorem set_games_and_h2h_sym {d : League} {r : GamesView × H2H}
    (h : set_games_and_h2h d = Except.ok r) : H2HSym r.2 := by
  unfold set_games_and_h2h at h
  refine foldlM_ok_inv (fun x => H2HSym x.2) ?_
    (init_h2h_sym (d.managers.map fun p => p.2.name)) h
  intro b0 sp b1 hP hstep
  exact process_season_sym hP hstep

/-- C6: after any successful `transform()` of a freshly constructed
transformer, a pair (year, week) is recorded in
`head_to_head.matchups[A][B]` exactly when it is recorded in
`head_to_head.matchups[B][A]`, for all manager names A and B. -/
theorem c6_head_to_head_symmetry (c : Configuration) (l : League)
    (a mm : Option (String → String)) (t t' : TransformerState)
    (hinit : transformer_init c l a mm = Except.ok t)
    (hrun : t.transform = (t', none)) :
    ∀ A B : String, ∀ yw : Int × Int,
      yw ∈ (h2h_get t'.head_to_head A B).getD [] ↔
        yw ∈ (h2h_get t'.head_to_head B A).getD [] := by
  obtain ⟨m2, rfl⟩ := transformer_init_ok_shape hinit
  unfold TransformerState.transform at hrun
  simp only [Bool.false_eq_true, if_false] at hrun
  cases hg : set_games_and_h2h ({ l with managers := m2 } : League) with
  | error e =>
    rw [hg] at hrun
    have := ((Prod.mk.injEq _ _ _ _).mp hrun).2
    exact absurd this (by simp)
  | ok gh =>
    rw [hg] at hrun
    cases hm : set_managers c ({ l with managers := m2 } : League) with
    | error e =>
      rw [hm] at hrun
      have := ((Prod.mk.injEq _ _ _ _).mp hrun).2
      exact absurd this (by simp)
    | ok mv =>
      rw [hm] at hrun
      have ht' := ((Prod.mk.injEq _ _ _ _).mp hrun).1
      have hsym := set_games_and_h2h_sym hg
      intro A B yw
      rw [← ht']
      have := hsym A B
      simp only [this]

/-- A league whose manager ids equal the display names, so the raw-id
indexing of the matchup ledger lands on present keys and `transform()`
succeeds. -/
def c6_league : League :=
  ⟨"league", [("Alice", ⟨"Alice", []⟩), ("Bob", ⟨"Bob", []⟩)],
    [(2020, ⟨[],
      [(1, ⟨[⟨[⟨100, ["Alice"], roster0⟩, ⟨90, ["Bob"], roster0⟩]⟩]⟩)],
      none, none⟩)]⟩

/-- The transformer state constructed over `c6_league`. -/
def c6_t : TransformerState :=
  TransformerState.mk config0 ({ c6_league with managers := c6_league.managers })
    (LeagueSummary.mk [] [] [] []) [] [] [] [] false

/-- The state after the (successful) transform of `c6_t`. -/
def c6_t2 : TransformerState := c6_t.transform.1

/-- C6 witness: on the concrete two-manager league the transform succeeds
and the week-1 matchup of 2020 is recorded symmetrically. -/
theorem c6_head_to_head_symmetry_witness :
    ((2020, 1) ∈ (h2h_get c6_t2.head_to_head "Alice" "Bob").getD [] ↔
      (2020, 1) ∈ (h2h_get c6_t2.head_to_head "Bob" "Alice").getD []) :=
  c6_head_to_head_symmetry config0 c6_league none none c6_t c6_t2 rfl rfl
    "Alice" "Bob" (2020, 1)

/-! ## Claim C10 — each (year, week) slot holds the week's last game -/

theorem dinsert_dinsert_same {κ α : Type} [DecidableEq κ] (d : List (κ × α))
    (k : κ) (v v' : α) : dinsert (dinsert d k v) k v' = dinsert d k v' := by
  induction d with
  | nil => simp [dinsert]
  | cons hd tl ih =>
    obtain ⟨k', w'⟩ := hd
    by_cases h : k' = k <;> simp [dinsert, h, ih]

/-- The games view at `games[y][w]` (`none` when either key is absent). -/
def games_slot (gv : GamesView) (y w : Int) : Option Game :=
  (dget gv y).bind (fun inner => dget inner w)

/-- What `transform()` is supposed to leave at `games[y][w]` according to
the written loop: the name-translated copy of the final game of the week's
iteration order, `none` when the year or week is absent or the week has no
games. -/
def expected_slot (d : League) (y w : Int) : Option Game :=
  match dget d.seasons y with
  | none => none
  | some s =>
    match dget s.weeks w with
    | none => none
    | some wk =>
      match wk.games.getLast? with
      | none => none
      | some gm => (translate_game d gm).toOption

/-- One processed game writes the translated copy to its own slot and
leaves every other year and week slot unchanged. -/
theorem process_game_slot {d : League} {y w : Int}
    {b b2 : GamesView × H2H} {g : Game}
    (hy : (dget b.1 y).isSome)
    (h : process_game d y w b g = Except.ok b2) :
    (dget b2.1 y).isSome ∧
    (∀ y2, y2 ≠ y → dget b2.1 y2 = dget b.1 y2) ∧
    (∀ w2, w2 ≠ w → games_slot b2.1 y w2 = games_slot b.1 y w2) ∧
    ∃ tg, translate_game d g = Except.ok tg ∧ games_slot b2.1 y w = some tg := by
  obtain ⟨inner, hinner⟩ := Option.isSome_iff_exists.mp hy
  unfold process_game at h
  simp only [bind, Except.bind] at h
  split at h
  · exact absurd h (by simp)
  · rename_i tg htr
    split at h
    · rename_i td0 td1 hteam
      split at h
      · exact absurd h (by simp)
      · rename_i v hfold
        simp only [pure, Except.pure] at h
        have hb2 : (dmodify b.1 y fun wk => dinsert wk w tg, v) = b2 :=
          (Except.ok.injEq _ _).mp h
        subst hb2
        refine ⟨?_, ?_, ?_, tg, htr, ?_⟩
        · rw [dget_dmodify_eq, hinner]
          rfl
        · intro y2 hy2
          exact dget_dmodify_ne b.1 y y2 _ (fun hc => hy2 hc.symm)
        · intro w2 hw2
          unfold games_slot
          rw [dget_dmodify_eq, hinner]
          simp [dget_dinsert_ne inner w w2 tg (fun hc => hw2 hc.symm)]
        · unfold games_slot
          rw [dget_dmodify_eq, hinner]
          simp [dget_dinsert_eq]
    · exact absurd h (by simp)

/-- The translated last game of a list of games; `base` when the list is
empty. -/
def last_game_value (d : League) (base : Option Game) (gs : List Game) :
    Option Game :=
  match gs.getLast? with
  | none => base
  | some gm => (translate_game d gm).toOption

theorem last_game_value_nil (d : League) (base : Option Game) :
    last_game_value d base [] = base := rfl

theorem last_game_value_of_getLast (d : League) (base : Option Game)
    {gs : List Game} {gm : Game} (h : gs.getLast? = some gm) :
    last_game_value d base gs = (translate_game d gm).toOption := by
  unfold last_game_value
  rw [h]

theorem last_game_value_of_ne_nil (d : League) (base base' : Option Game)
    {gs : List Game} (h : gs ≠ []) :
    last_game_value d base gs = last_game_value d base' gs := by
  cases hl : gs.getLast? with
  | none => exact absurd (List.getLast?_eq_none_iff.mp hl) h
  | some gm =>
    rw [last_game_value_of_getLast d base hl,
      last_game_value_of_getLast d base' hl]

/-- The value a processed week leaves in its year's slot `w`: the
translated last game when the week is present with games, otherwise the
incoming value. -/
def week_slot_value (d : League) (base : Option Game)
    (wkopt : Option Week) : Option Game :=
  match wkopt with
  | none => base
  | some wk => last_game_value d base wk.games

theorem week_slot_value_none (d : League) (base : Option Game) :
    week_slot_value d base none = base := rfl

theorem week_slot_value_some (d : League) (base : Option Game) (wk : Week) :
    week_slot_value d base (some wk) = last_game_value d base wk.games := rfl

/-- The value a processed season leaves at `(year, w)`: determined by its
own week map (over an empty starting year), otherwise the incoming
value. -/
def seasons_slot_value (d : League) (base : Option Game)
    (sopt : Option Season) (w : Int) : Option Game :=
  match sopt with
  | none => base
  | some s => week_slot_value d none (dget s.weeks w)

theorem seasons_slot_value_none (d : League) (base : Option Game) (w : Int) :
    seasons_slot_value d base none w = base := rfl

theorem seasons_slot_value_some (d : League) (base : Option Game)
    (s : Season) (w : Int) :
    seasons_slot_value d base (some s) w =
      week_slot_value d none (dget s.weeks w) := rfl

theorem expected_slot_eq (d : League) (y w : Int) :
    expected_slot d y w = seasons_slot_value d none (dget d.seasons y) w := by
  unfold expected_slot seasons_slot_value week_slot_value last_game_value
  cases dget d.seasons y with
  | none => rfl
  | some s =>
    cases dget s.weeks w with
    | none => rfl
    | some wk =>
      cases wk.games.getLast? with
      | none => rfl
      | some gm => rfl

/-- A successfully folded list of games of one week leaves other slots
unchanged and stores the translated copy of the last of its games. -/
theorem games_fold_slot {d : League} {y w : Int} :
    ∀ {gs : List Game} {b b2 : GamesView × H2H},
      (dget b.1 y).isSome →
      List.foldlM (process_game d y w) b gs = Except.ok b2 →
      (dget b2.1 y).isSome ∧
      (∀ y2, y2 ≠ y → dget b2.1 y2 = dget b.1 y2) ∧
      (∀ w2, w2 ≠ w → games_slot b2.1 y w2 = games_slot b.1 y w2) ∧
      games_slot b2.1 y w = last_game_value d (games_slot b.1 y w) gs := by
  intro gs
  induction gs with
  | nil =>
    intro b b2 hy h
    simp only [List.foldlM_nil] at h
    cases h
    exact ⟨hy, fun _ _ => rfl, fun _ _ => rfl, rfl⟩
  | cons g rest ih =>
    intro b b2 hy h
    rw [List.foldlM_cons] at h
    cases hstep : process_game d y w b g with
    | error e => rw [hstep] at h; exact absurd h (by simp [except_bind_error])
    | ok bmid =>
      rw [hstep] at h
      rw [except_bind_ok] at h
      obtain ⟨hy1, hother1, hw1, tg, htr, hslot1⟩ := process_game_slot hy hstep
      obtain ⟨hy2, hother2, hw2, hlast⟩ := ih hy1 h
      refine ⟨hy2, ?_, ?_, ?_⟩
      · intro y2 hne
        rw [hother2 y2 hne, hother1 y2 hne]
      · intro w2 hne
        rw [hw2 w2 hne, hw1 w2 hne]
      · cases hrest : rest with
        | nil =>
          subst hrest
          rw [hlast, last_game_value_nil, hslot1,
            last_game_value_of_getLast d _ (List.getLast?_singleton g), htr]
          rfl
        | cons g2 rest2 =>
          subst hrest
          rw [hlast,
            last_game_value_of_ne_nil d (games_slot bmid.1 y w)
              (games_slot b.1 y w) (List.cons_ne_nil g2 rest2)]
          unfold last_game_value
          rw [show (g :: g2 :: rest2).getLast? = (g2 :: rest2).getLast? from
            List.getLast?_cons_cons]

/-- A successfully folded list of weeks (with distinct week numbers, as a
Python dict guarantees) leaves other years unchanged and gives each week
slot of year `y` the translated last game of that week, keeping the
incoming value where a week is absent or has no games. -/
theorem weeks_fold_slot {d : League} {y : Int} :
    ∀ {ws : List (Int × Week)} {b b2 : GamesView × H2H},
      (dget b.1 y).isSome →
      (dkeys ws).Nodup →
      List.foldlM (process_week d y) b ws = Except.ok b2 →
      (dget b2.1 y).isSome ∧
      (∀ y2, y2 ≠ y → dget b2.1 y2 = dget b.1 y2) ∧
      (∀ w, games_slot b2.1 y w =
        week_slot_value d (games_slot b.1 y w) (dget ws w)) := by
  intro ws
  induction ws with
  | nil =>
    intro b b2 hy _ h
    simp only [List.foldlM_nil] at h
    cases h
    exact ⟨hy, fun _ _ => rfl, fun w => rfl⟩
  | cons p ws ih =>
    intro b b2 hy hnd h
    obtain ⟨w1, wk1⟩ := p
    rw [List.foldlM_cons] at h
    cases hstep : process_week d y b (w1, wk1) with
    | error e => rw [hstep] at h; exact absurd h (by simp [except_bind_error])
    | ok bmid =>
      rw [hstep] at h
      rw [except_bind_ok] at h
      have hnd2 : w1 ∉ dkeys ws ∧ (dkeys ws).Nodup :=
        List.nodup_cons.mp (show (w1 :: dkeys ws).Nodup from hnd)
      unfold process_week at hstep
      obtain ⟨hy1, hother1, hw1pres, hlast1⟩ := games_fold_slot hy hstep
      obtain ⟨hy2, hother2, hslot2⟩ := ih hy1 hnd2.2 h
      refine ⟨hy2, ?_, ?_⟩
      · intro y2 hne
        rw [hother2 y2 hne, hother1 y2 hne]
      · intro w
        rw [hslot2 w]
        by_cases hww : w = w1
        · subst hww
          rw [dget_eq_none_of_not_mem_dkeys ws w hnd2.1, week_slot_value_none,
            hlast1]
          rw [show dget ((w, wk1) :: ws) w = some wk1 by simp [dget],
            week_slot_value_some]
        · have hww2 : ¬ w1 = w := fun hc => hww hc.symm
          rw [show dget ((w1, wk1) :: ws) w = dget ws w by simp [dget, hww2]]
          cases hws : dget ws w with
          | none =>
            rw [week_slot_value_none, week_slot_value_none]
            exact hw1pres w (fun hc => hww hc)
          | some wk =>
            rw [week_slot_value_some, week_slot_value_some]
            cases hg0 : wk.games with
            | nil =>
              rw [last_game_value_nil, last_game_value_nil]
              exact hw1pres w (fun hc => hww hc)
            | cons g1 gs1 =>
              exact last_game_value_of_ne_nil d _ _ (List.cons_ne_nil g1 gs1)

/-- One successfully processed season determines year `p.1` of the games
view entirely from its own weeks and leaves every other year unchanged. -/
theorem process_season_slot {d : League} {b b2 : GamesView × H2H}
    {p : Int × Season}
    (hnw : (dkeys p.2.weeks).Nodup)
    (h : process_season d b p = Except.ok b2) :
    (∀ y2, y2 ≠ p.1 → dget b2.1 y2 = dget b.1 y2) ∧
    (∀ w, games_slot b2.1 p.1 w =
      week_slot_value d none (dget p.2.weeks w)) := by
  unfold process_season at h
  have hymid : (dget (dinsert b.1 p.1 [], b.2).1 p.1).isSome := by
    simp [dget_dinsert_eq]
  obtain ⟨hy2, hother, hslot⟩ := weeks_fold_slot hymid hnw h
  constructor
  · intro y2 hne
    rw [hother y2 hne]
    exact dget_dinsert_ne b.1 p.1 y2 [] (fun hc => hne hc.symm)
  · intro w
    rw [hslot w]
    have hbase : games_slot (dinsert b.1 p.1 [], b.2).1 p.1 w = none := by
      unfold games_slot
      simp [dget_dinsert_eq, dget]
    rw [hbase]

/-- A successfully folded list of seasons (distinct years, distinct week
numbers per season) gives every slot of the games view the value
determined by its own season, falling back to the incoming view for years
not present. -/
theorem seasons_fold_slot {d : League} :
    ∀ {ss : List (Int × Season)} {b b2 : GamesView × H2H},
      (dkeys ss).Nodup →
      (∀ p ∈ ss, (dkeys p.2.weeks).Nodup) →
      List.foldlM (process_season d) b ss = Except.ok b2 →
      ∀ y w, games_slot b2.1 y w =
        seasons_slot_value d (games_slot b.1 y w) (dget ss y) w := by
  intro ss
  induction ss with
  | nil =>
    intro b b2 _ _ h y w
    simp only [List.foldlM_nil] at h
    cases h
    rfl
  | cons p ss ih =>
    intro b b2 hnd hnw h y w
    obtain ⟨y1, s1⟩ := p
    rw [List.foldlM_cons] at h
    cases hstep : process_season d b (y1, s1) with
    | error e => rw [hstep] at h; exact absurd h (by simp [except_bind_error])
    | ok bmid =>
      rw [hstep] at h
      rw [except_bind_ok] at h
      have hnd2 : y1 ∉ dkeys ss ∧ (dkeys ss).Nodup :=
        List.nodup_cons.mp (show (y1 :: dkeys ss).Nodup from hnd)
      have hnwtail : ∀ q ∈ ss, (dkeys q.2.weeks).Nodup := by
        intro q hq
        exact hnw q (List.mem_cons_of_mem _ hq)
      obtain ⟨hother1, hslot1⟩ :=
        process_season_slot (hnw (y1, s1) (List.mem_cons_self _ _)) hstep
      have hrec := ih hnd2.2 hnwtail h y w
      rw [hrec]
      by_cases hyy : y = y1
      · subst hyy
        rw [dget_eq_none_of_not_mem_dkeys ss y hnd2.1,
          seasons_slot_value_none, hslot1 w]
        rw [show dget ((y, s1) :: ss) y = some s1 by simp [dget],
          seasons_slot_value_some]
      · have hyy2 : ¬ y1 = y := fun hc => hyy hc.symm
        rw [show dget ((y1, s1) :: ss) y = dget ss y by simp [dget, hyy2]]
        cases hss : dget ss y with
        | none =>
          rw [seasons_slot_value_none, seasons_slot_value_none]
          unfold games_slot
          rw [hother1 y (fun hc => hyy hc)]
        | some s =>
          rw [seasons_slot_value_some, seasons_slot_value_some]

/-- On success, every (year, week) slot of the games view equals the
name-translated copy of the last game of that week of that season
(`none` where year or week is absent or the week has no games). -/
theorem set_games_slot {d : League} {r : GamesView × H2H}
    (hns : (dkeys d.seasons).Nodup)
    (hnw : ∀ p ∈ d.seasons, (dkeys p.2.weeks).Nodup)
    (h : set_games_and_h2h d = Except.ok r) :
    ∀ y w, games_slot r.1 y w = expected_slot d y w := by
  intro y w
  unfold set_games_and_h2h at h
  have hrec := seasons_fold_slot hns hnw h y w
  rw [hrec, expected_slot_eq]
  rfl

/-- C10: after any successful `transform()` of a freshly constructed
transformer, each `games[year][week]` slot of the games view holds exactly
the name-translated copy of the LAST game of that week's iteration order
(`none` where the year or week is absent or the week has no games) — in
particular, for a week with two or more games only the last one is stored,
and the earlier games of the week back no slot of the view. -/
theorem c10_games_slot_is_last_game (c : Configuration) (l : League)
    (a mm : Option (String → String)) (t t' : TransformerState)
    (hinit : transformer_init c l a mm = Except.ok t)
    (hrun : t.transform = (t', none))
    (hns : (dkeys t.data.seasons).Nodup)
    (hnw : ∀ p ∈ t.data.seasons, (dkeys p.2.weeks).Nodup) :
    ∀ y w, games_slot t'.games y w = expected_slot t.data y w := by
  obtain ⟨m2, rfl⟩ := transformer_init_ok_shape hinit
  unfold TransformerState.transform at hrun
  simp only [Bool.false_eq_true, if_false] at hrun
  cases hg : set_games_and_h2h ({ l with managers := m2 } : League) with
  | error e =>
    rw [hg] at hrun
    have := ((Prod.mk.injEq _ _ _ _).mp hrun).2
    exact absurd this (by simp)
  | ok gh =>
    rw [hg] at hrun
    cases hm : set_managers c ({ l with managers := m2 } : League) with
    | error e =>
      rw [hm] at hrun
      have := ((Prod.mk.injEq _ _ _ _).mp hrun).2
      exact absurd this (by simp)
    | ok mv =>
      rw [hm] at hrun
      have ht' := ((Prod.mk.injEq _ _ _ _).mp hrun).1
      intro y w
      rw [← ht']
      exact set_games_slot hns hnw hg y w

/-- A league (manager ids equal to names) whose week 1 of 2020 holds two
games, so the second one overwrites the first in the games view. -/
def c10_league : League :=
  ⟨"league", [("Alice", ⟨"Alice", []⟩), ("Bob", ⟨"Bob", []⟩)],
    [(2020, ⟨[],
      [(1, ⟨[⟨[⟨100, ["Alice"], roster0⟩, ⟨90, ["Bob"], roster0⟩]⟩,
             ⟨[⟨70, ["Alice"], roster0⟩, ⟨80, ["Bob"], roster0⟩]⟩]⟩)],
      none, none⟩)]⟩

/-- The transformer state constructed over `c10_league`. -/
def c10_t : TransformerState :=
  TransformerState.mk config0
    ({ c10_league with managers := c10_league.managers })
    (LeagueSummary.mk [] [] [] []) [] [] [] [] false

/-- The state after the (successful) transform of `c10_t`. -/
def c10_t2 : TransformerState := c10_t.transform.1

/-- C10 witness: on the concrete league with a two-game week the transform
succeeds and the (2020, 1) slot is characterized as the translated last
game. -/
theorem c10_games_slot_is_last_game_witness :
    games_slot c10_t2.games 2020 1 = expected_slot c10_t.data 2020 1 :=
  c10_games_slot_is_last_game config0 c10_league none none c10_t c10_t2 rfl rfl
    (by decide) (by decide) 2020 1

/-! ## Claim C4 — `set_season_data` called twice with the same year -/

/-- The per-season data a collector fetches from its source before mutating
the league: the managers map returned by `_get_managers` (each `Manager`
carries `seasons=[year]` there), the final and regular-season standings,
the per-season platform league id (`season_to_id[year]`), and the weeks.
The network results parameterize the embedding; `set_season_data` is then
a pure function of them. -/
structure SeasonFetch where
  managers : List (String × Manager)
  final_standings : List (String × FinalStanding)
  regular_season_standings : List (String × RegularSeasonStanding)
  league_id : Int
  weeks : List (Int × Week)
deriving DecidableEq, Repr

/-- The manager upsert of `SleeperCollector.set_season_data` (lines
107-112; `NFLCollector.set_season_data` lines 219-225 are identical): a
new manager id is inserted with the fetched `Manager`, an existing one
gets the year appended to its seasons list. -/
def upsert_manager (year : Int) (l : League) (mid : String) (m : Manager) :
    League :=
  if (dget l.managers mid).isSome then
    { l with
        managers :=
          dmodify l.managers mid
            (fun old => { old with seasons := old.seasons ++ [year] }) }
  else
    { l with managers := dinsert l.managers mid m }

/-- `league.seasons[year].standings[mid] = st`. -/
def put_standing (l : League) (year : Int) (mid : String)
    (st : ManagerStanding) : League :=
  { l with
      seasons :=
        dmodify l.seasons year
          (fun s => { s with standings := dinsert s.standings mid st }) }

/-- `league.seasons[year].weeks[w] = wd`. -/
def put_week (l : League) (year w : Int) (wd : Week) : League :=
  { l with
      seasons :=
        dmodify l.seasons year
          (fun s => { s with weeks := dinsert s.weeks w wd }) }

/-- One manager iteration of `SleeperCollector.set_season_data`: upsert the
manager, then build the `ManagerStanding` (the final standing defaults to
`FinalStanding(None)`; a missing regular-season standing is a KeyError)
and store it under the year's standings. -/
def season_manager_step (f : SeasonFetch) (year : Int) (l : League)
    (p : String × Manager) : Except String League :=
  let l2 := upsert_manager year l p.1 p.2
  let fs := (dget f.final_standings p.1).getD (FinalStanding.mk none)
  match dget f.regular_season_standings p.1 with
  | none => Except.error "KeyError: regular season standings"
  | some rs => Except.ok (put_standing l2 year p.1 (ManagerStanding.mk fs rs))

/-- `SleeperCollector.set_season_data` (lines 91-124): reset
`league.seasons[year]` to an empty season carrying the platform league id,
upsert every fetched manager and store their standings, then store every
fetched week. -/
def set_season_data (f : SeasonFetch) (year : Int) (league : League) :
    Except String League := do
  let l0 := { league with
    seasons :=
      dinsert league.seasons year (Season.mk [] [] (some f.league_id) none) }
  let l1 ← f.managers.foldlM (season_manager_step f year) l0
  pure (f.weeks.foldl (fun l q => put_week l year q.1 q.2) l1)

theorem upsert_manager_seasons (year : Int) (l : League) (mid : String)
    (m : Manager) : (upsert_manager year l mid m).seasons = l.seasons := by
  unfold upsert_manager
  split <;> rfl

theorem put_standing_managers (l : League) (year : Int) (mid : String)
    (st : ManagerStanding) : (put_standing l year mid st).managers = l.managers :=
  rfl

theorem weeks_foldl_managers (year : Int) :
    ∀ (ws : List (Int × Week)) (l : League),
      (ws.foldl (fun l2 q => put_week l2 year q.1 q.2) l).managers = l.managers := by
  intro ws
  induction ws with
  | nil => intro l; rfl
  | cons q ws ih =>
    intro l
    rw [List.foldl_cons, ih]
    rfl

/-- A successful manager step leaves the managers map exactly as the
upsert left it. -/
theorem season_manager_step_managers {f : SeasonFetch} {year : Int}
    {l l' : League} {p : String × Manager}
    (h : season_manager_step f year l p = Except.ok l') :
    l'.managers = (upsert_manager year l p.1 p.2).managers := by
  unfold season_manager_step at h
  split at h
  · exact absurd h (by simp)
  · cases h
    rfl

/-- A successful manager step maps the year's season entry by inserting
this manager's standing, which is computed from the fetch alone. -/
theorem season_manager_step_seasons {f : SeasonFetch} {year : Int}
    {l l' : League} {p : String × Manager}
    (h : season_manager_step f year l p = Except.ok l') :
    ∃ rs, dget f.regular_season_standings p.1 = some rs ∧
      dget l'.seasons year = (dget l.seasons year).map
        (fun s => { s with
          standings := dinsert s.standings p.1
            (ManagerStanding.mk
              ((dget f.final_standings p.1).getD (FinalStanding.mk none)) rs) }) := by
  unfold season_manager_step at h
  split at h
  · exact absurd h (by simp)
  · rename_i rs hrs
    cases h
    refine ⟨rs, hrs, ?_⟩
    unfold put_standing
    have hus := upsert_manager_seasons year l p.1 p.2
    simp only [dget_dmodify_eq, hus]

/-- Two successful manager folds over the same fetch, starting from equal
year entries, end with equal year entries. -/
theorem managers_fold_seasons_eq {f : SeasonFetch} {year : Int} :
    ∀ {ms : List (String × Manager)} {la lb ra rb : League},
      dget la.seasons year = dget lb.seasons year →
      List.foldlM (season_manager_step f year) la ms = Except.ok ra →
      List.foldlM (season_manager_step f year) lb ms = Except.ok rb →
      dget ra.seasons year = dget rb.seasons year := by
  intro ms
  induction ms with
  | nil =>
    intro la lb ra rb heq ha hb
    simp only [List.foldlM_nil] at ha hb
    cases ha
    cases hb
    exact heq
  | cons p ms ih =>
    intro la lb ra rb heq ha hb
    rw [List.foldlM_cons] at ha hb
    cases hsa : season_manager_step f year la p with
    | error e => rw [hsa] at ha; exact absurd ha (by simp [except_bind_error])
    | ok la1 =>
      cases hsb : season_manager_step f year lb p with
      | error e => rw [hsb] at hb; exact absurd hb (by simp [except_bind_error])
      | ok lb1 =>
        rw [hsa] at ha
        rw [hsb] at hb
        rw [except_bind_ok] at ha
        rw [except_bind_ok] at hb
        obtain ⟨rs1, hrs1, he1⟩ := season_manager_step_seasons hsa
        obtain ⟨rs2, hrs2, he2⟩ := season_manager_step_seasons hsb
        have hrs : rs1 = rs2 := by
          rw [hrs1] at hrs2
          exact (Option.some.injEq _ _).mp hrs2
        refine ih ?_ ha hb
        rw [he1, he2, heq, hrs]

/-- The weeks fold maps the year's season entry by a function of the fetch
alone. -/
theorem weeks_foldl_seasons_eq {year : Int} :
    ∀ {ws : List (Int × Week)} {la lb : League},
      dget la.seasons year = dget lb.seasons year →
      dget ((ws.foldl (fun l q => put_week l year q.1 q.2) la)).seasons year =
        dget ((ws.foldl (fun l q => put_week l year q.1 q.2) lb)).seasons year := by
  intro ws
  induction ws with
  | nil => intro la lb heq; exact heq
  | cons q ws ih =>
    intro la lb heq
    rw [List.foldl_cons, List.foldl_cons]
    refine ih ?_
    unfold put_week
    simp only [dget_dmodify_eq, heq]

/-- The year entry written by a successful `set_season_data` call depends
only on the fetch and the year, not on the incoming league. -/
theorem set_season_data_seasons_eq {f : SeasonFetch} {year : Int}
    {la lb ra rb : League}
    (ha : set_season_data f year la = Except.ok ra)
    (hb : set_season_data f year lb = Except.ok rb) :
    dget ra.seasons year = dget rb.seasons year := by
  unfold set_season_data at ha hb
  simp only [bind, Except.bind] at ha hb
  split at ha
  · exact absurd ha (by simp)
  · rename_i la1 hfa
    split at hb
    · exact absurd hb (by simp)
    · rename_i lb1 hfb
      simp only [pure, Except.pure] at ha hb
      have hra := (Except.ok.injEq _ _).mp ha
      have hrb := (Except.ok.injEq _ _).mp hb
      rw [← hra, ← hrb]
      refine weeks_foldl_seasons_eq ?_
      refine managers_fold_seasons_eq ?_ hfa hfb
      simp only [dget_dinsert_eq]

/-- A manager step never deletes a manager entry, and always leaves its
own manager present. -/
theorem season_manager_step_presence {f : SeasonFetch} {year : Int}
    {l l' : League} {p : String × Manager}
    (h : season_manager_step f year l p = Except.ok l') (mid : String) :
    ((dget l.managers mid).isSome → (dget l'.managers mid).isSome) ∧
    (mid = p.1 → (dget l'.managers mid).isSome) ∧
    (mid ≠ p.1 → dget l'.managers mid = dget l.managers mid) := by
  have hm := season_manager_step_managers h
  unfold upsert_manager at hm
  split at hm
  · rename_i hpres
    have hm2 : l'.managers =
        dmodify l.managers p.1
          (fun old => { old with seasons := old.seasons ++ [year] }) := hm
    rcases Option.isSome_iff_exists.mp hpres with ⟨mv, hmv⟩
    refine ⟨?_, ?_, ?_⟩
    · intro hs
      by_cases hmid : mid = p.1
      · subst hmid
        rw [hm2, dget_dmodify_eq, hmv]
        rfl
      · rw [hm2, dget_dmodify_ne l.managers p.1 mid _ (fun hc => hmid hc.symm)]
        exact hs
    · intro hmid
      subst hmid
      rw [hm2, dget_dmodify_eq, hmv]
      rfl
    · intro hmid
      rw [hm2]
      exact dget_dmodify_ne l.managers p.1 mid _ (fun hc => hmid hc.symm)
  · rename_i hpres
    have hm2 : l'.managers = dinsert l.managers p.1 p.2 := hm
    refine ⟨?_, ?_, ?_⟩
    · intro hs
      by_cases hmid : mid = p.1
      · subst hmid
        rw [hm2, dget_dinsert_eq]
        rfl
      · rw [hm2, dget_dinsert_ne l.managers p.1 mid p.2 (fun hc => hmid hc.symm)]
        exact hs
    · intro hmid
      subst hmid
      rw [hm2, dget_dinsert_eq]
      rfl
    · intro hmid
      rw [hm2]
      exact dget_dinsert_ne l.managers p.1 mid p.2 (fun hc => hmid hc.symm)

/-- After a successful manager fold, every fetched manager id is present. -/
theorem managers_fold_presence {f : SeasonFetch} {year : Int} :
    ∀ {ms : List (String × Manager)} {l l' : League},
      List.foldlM (season_manager_step f year) l ms = Except.ok l' →
      ∀ mid ∈ dkeys ms, (dget l'.managers mid).isSome := by
  intro ms
  induction ms with
  | nil =>
    intro l l' _ mid hmid
    exact absurd hmid (by simp [dkeys])
  | cons p ms ih =>
    intro l l' h mid hmid
    rw [List.foldlM_cons] at h
    cases hs : season_manager_step f year l p with
    | error e => rw [hs] at h; exact absurd h (by simp [except_bind_error])
    | ok l1 =>
      rw [hs] at h
      rw [except_bind_ok] at h
      rcases List.mem_cons.mp (show mid ∈ p.1 :: dkeys ms from hmid) with heq | htl
      · have h1 : (dget l1.managers mid).isSome :=
          (season_manager_step_presence hs mid).2.1 heq
        exact foldlM_ok_inv (fun x => (dget x.managers mid).isSome)
          (fun b a b' hP hstep => (season_manager_step_presence hstep mid).1 hP)
          h1 h
      · exact ih h mid htl

/-- A manager fold leaves the entries of ids outside the fetched keys
untouched. -/
theorem managers_fold_other {f : SeasonFetch} {year : Int}
    {ms : List (String × Manager)} {l l' : League}
    (h : List.foldlM (season_manager_step f year) l ms = Except.ok l')
    (mid : String) (hmid : mid ∉ dkeys ms) :
    dget l'.managers mid = dget l.managers mid := by
  induction ms generalizing l with
  | nil =>
    simp only [List.foldlM_nil] at h
    cases h
    rfl
  | cons p ms ih =>
    rw [List.foldlM_cons] at h
    cases hs : season_manager_step f year l p with
    | error e => rw [hs] at h; exact absurd h (by simp [except_bind_error])
    | ok l1 =>
      rw [hs] at h
      rw [except_bind_ok] at h
      have hne : mid ≠ p.1 := by
        intro hc
        exact hmid (by simp [dkeys, hc])
      have htl : mid ∉ dkeys ms := by
        intro hc
        exact hmid (by simp [dkeys] at hc ⊢; exact Or.inr hc)
      rw [ih h htl]
      exact (season_manager_step_presence hs mid).2.2 hne

/-- When every fetched manager id is already present (with pairwise
distinct fetched ids, as a Python dict guarantees), the manager fold
appends the year to each of their season lists. -/
theorem managers_fold_append {f : SeasonFetch} {year : Int} :
    ∀ {ms : List (String × Manager)} {l l' : League},
      (dkeys ms).Nodup →
      (∀ mid ∈ dkeys ms, (dget l.managers mid).isSome) →
      List.foldlM (season_manager_step f year) l ms = Except.ok l' →
      ∀ mid ∈ dkeys ms,
        dget l'.managers mid = (dget l.managers mid).map
          (fun m => { m with seasons := m.seasons ++ [year] }) := by
  intro ms
  induction ms with
  | nil =>
    intro l l' _ _ _ mid hmid
    exact absurd hmid (by simp [dkeys])
  | cons p ms ih =>
    intro l l' hnd hpres h mid hmid
    rw [List.foldlM_cons] at h
    cases hs : season_manager_step f year l p with
    | error e => rw [hs] at h; exact absurd h (by simp [except_bind_error])
    | ok l1 =>
      rw [hs] at h
      rw [except_bind_ok] at h
      have hnd2 : p.1 ∉ dkeys ms ∧ (dkeys ms).Nodup :=
        List.nodup_cons.mp (show (p.1 :: dkeys ms).Nodup from hnd)
      have hm := season_manager_step_managers hs
      have hppres : (dget l.managers p.1).isSome :=
        hpres p.1 (by simp [dkeys])
      have hl1own : dget l1.managers p.1 = (dget l.managers p.1).map
          (fun m => { m with seasons := m.seasons ++ [year] }) := by
        rw [hm]
        unfold upsert_manager
        split
        · simp only [dget_dmodify_eq]
        · rename_i hnp
          exact absurd hppres hnp
      rcases List.mem_cons.mp (show mid ∈ p.1 :: dkeys ms from hmid) with heq | htl
      · rw [heq, managers_fold_other h p.1 hnd2.1, hl1own]
      · have hl1other : ∀ m2 ∈ dkeys ms, dget l1.managers m2 = dget l.managers m2 := by
          intro m2 hm2
          have hne : m2 ≠ p.1 := by
            intro hc
            exact hnd2.1 (hc ▸ hm2)
          exact (season_manager_step_presence hs m2).2.2 hne
        have hpres2 : ∀ m2 ∈ dkeys ms, (dget l1.managers m2).isSome := by
          intro m2 hm2
          rw [hl1other m2 hm2]
          exact hpres m2 (by simp [dkeys] at hm2 ⊢; exact Or.inr hm2)
        rw [ih hnd2.2 hpres2 h mid htl, hl1other mid htl]

/-- C4 counterexample input: one fetched manager (id 1, name A, season list
2020) with a regular-season standing, no weeks. -/
def c4_fetch : SeasonFetch :=
  ⟨[("1", ⟨"A", [2020]⟩)], [("1", ⟨some 1⟩)],
    [("1", ⟨1, 100, 90, ⟨1, 0, 0⟩⟩)], 77, []⟩

/-- The league after one `set_season_data` call on the empty league. -/
def c4_l1 : League :=
  ((set_season_data c4_fetch 2020 (League.mk "league" [] [])).toOption).getD
    (League.mk "league" [] [])

/-- The league after calling `set_season_data` a second time with the same
year. -/
def c4_l2 : League := ((set_season_data c4_fetch 2020 c4_l1).toOption).getD c4_l1

/-- C4 counterexample: calling `set_season_data` twice with the same year
is NOT idempotent on the manager season lists — after the second call the
single manager's seasons list is `[2020, 2020]`, which contains a
duplicate year. -/
theorem c4_counterexample :
    set_season_data c4_fetch 2020 (League.mk "league" [] []) = Except.ok c4_l1 ∧
    set_season_data c4_fetch 2020 c4_l1 = Except.ok c4_l2 ∧
    dget c4_l2.managers "1" = some (Manager.mk "A" [2020, 2020]) ∧
    ¬ ([2020, 2020] : List Int).Nodup := by
  refine ⟨rfl, rfl, rfl, by decide⟩

/-- C4 amended: for every fetch (with pairwise-distinct fetched manager
ids) and every league, a second `set_season_data` call with the same year
overwrites `league.seasons[year]` with content equal to the first call's
(an overwrite, not an accumulation), but appends the year a second time to
every fetched manager's seasons list instead of leaving it unchanged. -/
theorem c4_second_call_overwrites_season_but_duplicates_years
    (f : SeasonFetch) (year : Int) (l l1 l2 : League)
    (hnd : (dkeys f.managers).Nodup)
    (h1 : set_season_data f year l = Except.ok l1)
    (h2 : set_season_data f year l1 = Except.ok l2) :
    dget l2.seasons year = dget l1.seasons year ∧
    ∀ mid ∈ dkeys f.managers,
      dget l2.managers mid = (dget l1.managers mid).map
        (fun m => { m with seasons := m.seasons ++ [year] }) := by
  constructor
  · exact set_season_data_seasons_eq h2 h1
  · have hpres : ∀ mid ∈ dkeys f.managers, (dget l1.managers mid).isSome := by
      unfold set_season_data at h1
      simp only [bind, Except.bind] at h1
      split at h1
      · exact absurd h1 (by simp)
      · rename_i la1 hfa
        simp only [pure, Except.pure] at h1
        have hra := (Except.ok.injEq _ _).mp h1
        intro mid hmid
        rw [← hra, weeks_foldl_managers]
        exact managers_fold_presence hfa mid hmid
    unfold set_season_data at h2
    simp only [bind, Except.bind] at h2
    split at h2
    · exact absurd h2 (by simp)
    · rename_i lb1 hfb
      simp only [pure, Except.pure] at h2
      have hrb := (Except.ok.injEq _ _).mp h2
      intro mid hmid
      rw [← hrb, weeks_foldl_managers]
      have hpres0 : ∀ m2 ∈ dkeys f.managers,
          (dget ({ l1 with
            seasons := dinsert l1.seasons year
              (Season.mk [] [] (some f.league_id) none) } : League).managers m2).isSome := by
        intro m2 hm2
        exact hpres m2 hm2
      exact managers_fold_append hnd hpres0 hfb mid hmid

/-- C4 amended-claim witness at the concrete fetch: the 2020 season entry
is overwritten with equal content while the year is appended again. -/
theorem c4_second_call_witness :
    dget c4_l2.seasons 2020 = dget c4_l1.seasons 2020 ∧
    ∀ mid ∈ dkeys c4_fetch.managers,
      dget c4_l2.managers mid = (dget c4_l1.managers mid).map
        (fun m => { m with seasons := m.seasons ++ [2020] }) :=
  c4_second_call_overwrites_season_but_duplicates_years c4_fetch 2020
    (League.mk "league" [] []) c4_l1 c4_l2 (by decide) rfl rfl

/-! ## Claim C9 — JSON round-trip of the persisted League form

The persisted form (dataclasses_json with camelCase letter casing,
`json.dumps`/`json.loads`): field names in camelCase, map keys stringified
(`str(intKey)` on encode, `int(key)` on decode), optional `Season` fields
omitted when `None`, `FinalStanding.rank` emitted as `null` when unknown.
JSON numbers keep Python's int/float distinction lexically, modelled by
separate `int` and `num` constructors.
-/

inductive Json : Type where
  | null : Json
  | bool : Bool → Json
  | int : Int → Json
  | num : Rat → Json
  | str : String → Json
  | arr : List Json → Json
  | obj : List (String × Json) → Json

def Json.asInt : Json → Option Int
  | .int i => some i
  | _ => none

def Json.asNum : Json → Option Rat
  | .num q => some q
  | _ => none

def Json.asStr : Json → Option String
  | .str s => some s
  | _ => none

def Json.asArr : Json → Option (List Json)
  | .arr l => some l
  | _ => none

def Json.asObj : Json → Option (List (String × Json))
  | .obj o => some o
  | _ => none

/-- `int` decoded from the value at `rank`: Python emits `null` for an
unknown rank and an int otherwise. -/
def Json.asOptInt : Json → Option (Option Int)
  | .null => some none
  | .int i => some (some i)
  | _ => none

def digitToChar (d : Nat) : Char :=
  match d with
  | 0 => '0'
  | 1 => '1'
  | 2 => '2'
  | 3 => '3'
  | 4 => '4'
  | 5 => '5'
  | 6 => '6'
  | 7 => '7'
  | 8 => '8'
  | _ => '9'

def charToDigit (c : Char) : Option Nat :=
  if c = '0' then some 0
  else if c = '1' then some 1
  else if c = '2' then some 2
  else if c = '3' then some 3
  else if c = '4' then some 4
  else if c = '5' then some 5
  else if c = '6' then some 6
  else if c = '7' then some 7
  else if c = '8' then some 8
  else if c = '9' then some 9
  else none

/-- Python `str` of a natural number. -/
def natToString (n : Nat) : String :=
  if n = 0 then "0"
  else String.mk (((Nat.digits 10 n).reverse).map digitToChar)

/-- Python `int` of a digit string (list-of-characters core). -/
def strToNatCore (cs : List Char) : Option Nat :=
  match cs with
  | [] => none
  | c :: rest =>
    ((c :: rest).mapM charToDigit).map (fun ds => Nat.ofDigits 10 ds.reverse)

/-- Python `int` of a digit string. -/
def strToNat (s : String) : Option Nat := strToNatCore s.data

/-- Python `str` of an int. -/
def intToString (i : Int) : String :=
  if i < 0 then "-" ++ natToString i.natAbs else natToString i.toNat

/-- Python `int` of a possibly-signed digit string (core). -/
def strToIntCore (cs : List Char) : Option Int :=
  match cs with
  | [] => none
  | c :: rest =>
    if c = '-' then (strToNatCore rest).map (fun n => -(n : Int))
    else (strToNatCore (c :: rest)).map (fun n => (n : Int))

/-- Python `int` of a possibly-signed digit string. -/
def strToInt (s : String) : Option Int := strToIntCore s.data

theorem charToDigit_digitToChar {d : Nat} (h : d < 10) :
    charToDigit (digitToChar d) = some d := by
  interval_cases d <;> rfl

theorem digitToChar_ne_minus {d : Nat} (h : d < 10) : digitToChar d ≠ '-' := by
  interval_cases d <;> decide

theorem mapM_map_some {α β : Type} {f : α → β} {g : β → Option α} :
    ∀ {l : List α}, (∀ x ∈ l, g (f x) = some x) → (l.map f).mapM g = some l := by
  intro l
  induction l with
  | nil => intro _; rfl
  | cons x xs ih =>
    intro h
    rw [List.map_cons, List.mapM_cons]
    rw [h x (List.mem_cons_self _ _)]
    rw [ih (fun y hy => h y (List.mem_cons_of_mem _ hy))]
    rfl

theorem strToNat_natToString (n : Nat) : strToNat (natToString n) = some n := by
  by_cases h0 : n = 0
  · subst h0
    rfl
  · unfold strToNat natToString
    rw [if_neg h0]
    show strToNatCore ((Nat.digits 10 n).reverse.map digitToChar) = some n
    have hmapm : ((Nat.digits 10 n).reverse.map digitToChar).mapM charToDigit =
        some (Nat.digits 10 n).reverse := by
      refine mapM_map_some ?_
      intro d hdm
      exact charToDigit_digitToChar
        (Nat.digits_lt_base (by norm_num) (List.mem_reverse.mp hdm))
    cases hd : (Nat.digits 10 n).reverse.map digitToChar with
    | nil =>
      exact absurd hd (by simp [Nat.digits_ne_nil_iff_ne_zero.mpr h0])
    | cons c rest =>
      rw [hd] at hmapm
      simp only [strToNatCore]
      rw [hmapm]
      simp only [Option.map_some', List.reverse_reverse]
      rw [Nat.ofDigits_digits]

theorem strToInt_intToString (i : Int) : strToInt (intToString i) = some i := by
  by_cases hneg : i < 0
  · unfold strToInt intToString
    rw [if_pos hneg]
    show strToIntCore ('-' :: (natToString i.natAbs).data) = some i
    simp only [strToIntCore]
    rw [if_pos trivial]
    rw [show strToNatCore (natToString i.natAbs).data = some i.natAbs from
      strToNat_natToString i.natAbs]
    show some (-(i.natAbs : Int)) = some i
    congr 1
    omega
  · unfold strToInt intToString
    rw [if_neg hneg]
    by_cases h0 : i.toNat = 0
    · have hi : i = 0 := by omega
      subst hi
      rfl
    · unfold natToString
      rw [if_neg h0]
      show strToIntCore ((Nat.digits 10 i.toNat).reverse.map digitToChar) = some i
      cases hd : (Nat.digits 10 i.toNat).reverse.map digitToChar with
      | nil =>
        exact absurd hd (by simp [Nat.digits_ne_nil_iff_ne_zero.mpr h0])
      | cons c rest =>
        have hcne : c ≠ '-' := by
          have hcm : c ∈ (Nat.digits 10 i.toNat).reverse.map digitToChar := by
            rw [hd]
            exact List.mem_cons_self _ _
          obtain ⟨d, hdm, hdc⟩ := List.mem_map.mp hcm
          rw [← hdc]
          exact digitToChar_ne_minus
            (Nat.digits_lt_base (by norm_num) (List.mem_reverse.mp hdm))
        have hsn2 : strToNatCore (c :: rest) = some i.toNat := by
          rw [← hd]
          have hsn := strToNat_natToString i.toNat
          unfold strToNat natToString at hsn
          rw [if_neg h0] at hsn
          exact hsn
        simp only [strToIntCore]
        rw [if_neg hcne, hsn2]
        show some ((i.toNat : Int)) = some i
        congr 1
        omega

theorem obind_some {α β : Type} (a : α) (f : α → Option β) :
    (some a).bind f = f a := rfl

/-- A mapping-typed field serializes as a JSON object keyed by the
stringified map key (insertion order preserved). -/
def encodeDict {κ α : Type} (encKey : κ → String) (encVal : α → Json)
    (d : List (κ × α)) : List (String × Json) :=
  d.map (fun p => (encKey p.1, encVal p.2))

/-- Decoding applies the key type to each string key (dataclasses_json
`_decode_dict_keys`) and the value decoder to each value. -/
def decodeDict {κ α : Type} (decKey : String → Option κ)
    (decVal : Json → Option α) : List (String × Json) → Option (List (κ × α))
  | [] => some []
  | (ks, j) :: rest => do
    let k ← decKey ks
    let v ← decVal j
    let tail ← decodeDict decKey decVal rest
    some ((k, v) :: tail)

theorem decodeDict_encodeDict {κ α : Type} {encKey : κ → String}
    {encVal : α → Json} {decKey : String → Option κ}
    {decVal : Json → Option α}
    (hk : ∀ k, decKey (encKey k) = some k) :
    ∀ {d : List (κ × α)}, (∀ p ∈ d, decVal (encVal p.2) = some p.2) →
      decodeDict decKey decVal (encodeDict encKey encVal d) = some d := by
  intro d
  induction d with
  | nil => intro _; rfl
  | cons p ps ih =>
    intro hv
    obtain ⟨k0, v0⟩ := p
    have hv0 : decVal (encVal v0) = some v0 :=
      hv (k0, v0) (List.mem_cons_self _ _)
    have htail : decodeDict decKey decVal (encodeDict encKey encVal ps) =
        some ps :=
      ih (fun q hq => hv q (List.mem_cons_of_mem _ hq))
    show decodeDict decKey decVal
      ((encKey k0, encVal v0) :: encodeDict encKey encVal ps) = _
    simp only [decodeDict, hk k0, hv0, htail, obind_some]
    rfl

/-! Encoders and decoders for each persisted dataclass, with camelCase
field keys as emitted by `CamelCasedDataclass`. -/

def Rec.toJson (r : Rec) : Json :=
  Json.obj [("wins", Json.int r.wins), ("losses", Json.int r.losses),
    ("ties", Json.int r.ties)]

def Rec.fromJson (j : Json) : Option Rec := do
  let o ← j.asObj
  let wins ← (dget o "wins").bind Json.asInt
  let losses ← (dget o "losses").bind Json.asInt
  let ties ← (dget o "ties").bind Json.asInt
  some ⟨wins, losses, ties⟩

theorem rec_json_roundtrip (r : Rec) : Rec.fromJson (Rec.toJson r) = some r := rfl

def Player.toJson (p : Player) : Json :=
  Json.obj [("id", Json.str p.id), ("name", Json.str p.name),
    ("position", Json.str p.position)]

def Player.fromJson (j : Json) : Option Player := do
  let o ← j.asObj
  let id ← (dget o "id").bind Json.asStr
  let name ← (dget o "name").bind Json.asStr
  let position ← (dget o "position").bind Json.asStr
  some ⟨id, name, position⟩

theorem player_json_roundtrip (p : Player) :
    Player.fromJson (Player.toJson p) = some p := rfl

def Roster.toJson (r : Roster) : Json :=
  Json.obj [("starters", Json.arr (r.starters.map Player.toJson)),
    ("bench", Json.arr (r.bench.map Player.toJson))]

def Roster.fromJson (j : Json) : Option Roster := do
  let o ← j.asObj
  let sj ← (dget o "starters").bind Json.asArr
  let starters ← sj.mapM Player.fromJson
  let bj ← (dget o "bench").bind Json.asArr
  let bench ← bj.mapM Player.fromJson
  some ⟨starters, bench⟩

theorem roster_json_roundtrip (r : Roster) :
    Roster.fromJson (Roster.toJson r) = some r := by
  have hpref : Roster.fromJson (Roster.toJson r) =
      ((r.starters.map Player.toJson).mapM Player.fromJson).bind (fun sl =>
        ((r.bench.map Player.toJson).mapM Player.fromJson).bind (fun bl =>
          some ⟨sl, bl⟩)) := rfl
  rw [hpref, mapM_map_some (fun x _ => player_json_roundtrip x)]
  simp only [obind_some]
  rw [mapM_map_some (fun x _ => player_json_roundtrip x)]
  rfl

/-- Strings in a JSON array decode back to themselves. -/
theorem mapM_asStr_map_str (l : List String) :
    (l.map Json.str).mapM Json.asStr = some l :=
  mapM_map_some (fun _ _ => rfl)

/-- Ints in a JSON array decode back to themselves. -/
theorem mapM_asInt_map_int (l : List Int) :
    (l.map Json.int).mapM Json.asInt = some l :=
  mapM_map_some (fun _ _ => rfl)

def TeamGameData.toJson (t : TeamGameData) : Json :=
  Json.obj [("points", Json.num t.points),
    ("managers", Json.arr (t.managers.map Json.str)),
    ("roster", Roster.toJson t.roster)]

def TeamGameData.fromJson (j : Json) : Option TeamGameData := do
  let o ← j.asObj
  let points ← (dget o "points").bind Json.asNum
  let mj ← (dget o "managers").bind Json.asArr
  let managers ← mj.mapM Json.asStr
  let rj ← dget o "roster"
  let roster ← Roster.fromJson rj
  some ⟨points, managers, roster⟩

theorem team_game_data_json_roundtrip (t : TeamGameData) :
    TeamGameData.fromJson (TeamGameData.toJson t) = some t := by
  have hpref : TeamGameData.fromJson (TeamGameData.toJson t) =
      ((t.managers.map Json.str).mapM Json.asStr).bind (fun ms =>
        (Roster.fromJson (Roster.toJson t.roster)).bind (fun ro =>
          some ⟨t.points, ms, ro⟩)) := rfl
  rw [hpref, mapM_asStr_map_str]
  simp only [obind_some]
  rw [roster_json_roundtrip t.roster]
  rfl

def Game.toJson (g : Game) : Json :=
  Json.obj [("teamData", Json.arr (g.team_data.map TeamGameData.toJson))]

def Game.fromJson (j : Json) : Option Game := do
  let o ← j.asObj
  let tj ← (dget o "teamData").bind Json.asArr
  let team_data ← tj.mapM TeamGameData.fromJson
  some ⟨team_data⟩

theorem game_json_roundtrip (g : Game) : Game.fromJson (Game.toJson g) = some g := by
  have hpref : Game.fromJson (Game.toJson g) =
      ((g.team_data.map TeamGameData.toJson).mapM TeamGameData.fromJson).bind
        (fun td => some ⟨td⟩) := rfl
  rw [hpref, mapM_map_some (fun x _ => team_game_data_json_roundtrip x)]
  rfl

def Week.toJson (w : Week) : Json :=
  Json.obj [("games", Json.arr (w.games.map Game.toJson))]

def Week.fromJson (j : Json) : Option Week := do
  let o ← j.asObj
  let gj ← (dget o "games").bind Json.asArr
  let games ← gj.mapM Game.fromJson
  some ⟨games⟩

theorem week_json_roundtrip (w : Week) : Week.fromJson (Week.toJson w) = some w := by
  have hpref : Week.fromJson (Week.toJson w) =
      ((w.games.map Game.toJson).mapM Game.fromJson).bind
        (fun gs => some ⟨gs⟩) := rfl
  rw [hpref, mapM_map_some (fun x _ => game_json_roundtrip x)]
  rfl

/-- `FinalStanding.rank` is emitted as `null` when unknown (the one
intentionally-null optional field). -/
def FinalStanding.toJson (f : FinalStanding) : Json :=
  Json.obj [("rank", match f.rank with
    | some i => Json.int i
    | none => Json.null)]

def FinalStanding.fromJson (j : Json) : Option FinalStanding := do
  let o ← j.asObj
  let rj ← dget o "rank"
  let rank ← rj.asOptInt
  some ⟨rank⟩

theorem final_standing_json_roundtrip (f : FinalStanding) :
    FinalStanding.fromJson (FinalStanding.toJson f) = some f := by
  cases f with
  | mk rank => cases rank <;> rfl

def RegularSeasonStanding.toJson (r : RegularSeasonStanding) : Json :=
  Json.obj [("rank", Json.int r.rank),
    ("pointsScored", Json.num r.points_scored),
    ("pointsAgainst", Json.num r.points_against),
    ("record", Rec.toJson r.record)]

def RegularSeasonStanding.fromJson (j : Json) : Option RegularSeasonStanding := do
  let o ← j.asObj
  let rank ← (dget o "rank").bind Json.asInt
  let points_scored ← (dget o "pointsScored").bind Json.asNum
  let points_against ← (dget o "pointsAgainst").bind Json.asNum
  let rj ← dget o "record"
  let record ← Rec.fromJson rj
  some ⟨rank, points_scored, points_against, record⟩

theorem regular_season_standing_json_roundtrip (r : RegularSeasonStanding) :
    RegularSeasonStanding.fromJson (RegularSeasonStanding.toJson r) = some r :=
  rfl

def ManagerStanding.toJson (m : ManagerStanding) : Json :=
  Json.obj [("finalStanding", FinalStanding.toJson m.final_standing),
    ("regularSeasonStanding",
      RegularSeasonStanding.toJson m.regular_season_standing)]

def ManagerStanding.fromJson (j : Json) : Option ManagerStanding := do
  let o ← j.asObj
  let fj ← dget o "finalStanding"
  let final_standing ← FinalStanding.fromJson fj
  let rj ← dget o "regularSeasonStanding"
  let regular_season_standing ← RegularSeasonStanding.fromJson rj
  some ⟨final_standing, regular_season_standing⟩

theorem manager_standing_json_roundtrip (m : ManagerStanding) :
    ManagerStanding.fromJson (ManagerStanding.toJson m) = some m := by
  have hpref : ManagerStanding.fromJson (ManagerStanding.toJson m) =
      (FinalStanding.fromJson (FinalStanding.toJson m.final_standing)).bind
        (fun fs =>
          (RegularSeasonStanding.fromJson
            (RegularSeasonStanding.toJson m.regular_season_standing)).bind
            (fun rs => some ⟨fs, rs⟩)) := rfl
  rw [hpref, final_standing_json_roundtrip]
  simp only [obind_some]
  rw [regular_season_standing_json_roundtrip]
  rfl

def DraftPick.toJson (p : DraftPick) : Json :=
  Json.obj [("round", Json.int p.round),
    ("roundSlot", Json.int p.round_slot),
    ("overallPick", Json.int p.overall_pick),
    ("playerId", Json.str p.player_id),
    ("playerPosition", Json.str p.player_position),
    ("managerId", Json.str p.manager_id)]

def DraftPick.fromJson (j : Json) : Option DraftPick := do
  let o ← j.asObj
  let round ← (dget o "round").bind Json.asInt
  let round_slot ← (dget o "roundSlot").bind Json.asInt
  let overall_pick ← (dget o "overallPick").bind Json.asInt
  let player_id ← (dget o "playerId").bind Json.asStr
  let player_position ← (dget o "playerPosition").bind Json.asStr
  let manager_id ← (dget o "managerId").bind Json.asStr
  some ⟨round, round_slot, overall_pick, player_id, player_position, manager_id⟩

theorem draft_pick_json_roundtrip (p : DraftPick) :
    DraftPick.fromJson (DraftPick.toJson p) = some p := rfl

def Draft.toJson (d : Draft) : Json :=
  Json.obj [("drafts",
    Json.arr (d.drafts.map (fun ps => Json.arr (ps.map DraftPick.toJson))))]

def Draft.fromJson (j : Json) : Option Draft := do
  let o ← j.asObj
  let dj ← (dget o "drafts").bind Json.asArr
  let drafts ← dj.mapM (fun x => (x.asArr).bind (fun l => l.mapM DraftPick.fromJson))
  some ⟨drafts⟩

/-- Rows of draft picks in a JSON array decode back to themselves. -/
theorem mapM_draft_rows (l : List (List DraftPick)) :
    (l.map (fun ps => Json.arr (ps.map DraftPick.toJson))).mapM
      (fun x => (Json.asArr x).bind (fun l2 => l2.mapM DraftPick.fromJson)) =
      some l := by
  refine mapM_map_some ?_
  intro ps _
  simp only [Json.asArr, obind_some]
  exact mapM_map_some (fun x _ => draft_pick_json_roundtrip x)

theorem draft_json_roundtrip (d : Draft) : Draft.fromJson (Draft.toJson d) = some d := by
  have hpref : Draft.fromJson (Draft.toJson d) =
      ((d.drafts.map (fun ps => Json.arr (ps.map DraftPick.toJson))).mapM
        (fun x => (Json.asArr x).bind (fun l2 => l2.mapM DraftPick.fromJson))).bind
        (fun ds => some ⟨ds⟩) := rfl
  rw [hpref, mapM_draft_rows]
  rfl

/-- `Season` omits `leagueId` and `draftResults` from the object when they
are `None` (the `exclude` metadata), and emits them otherwise. -/
def Season.toJson (s : Season) : Json :=
  Json.obj
    ([("standings",
        Json.obj (encodeDict (fun k => k) ManagerStanding.toJson s.standings)),
      ("weeks", Json.obj (encodeDict intToString Week.toJson s.weeks))] ++
     (match s.league_id with
      | some i => [("leagueId", Json.int i)]
      | none => []) ++
     (match s.draft_results with
      | some dr => [("draftResults", Draft.toJson dr)]
      | none => []))

/-- Decoding restores the defaults (`None`) for the optional keys when
absent. -/
def Season.fromJson (j : Json) : Option Season := do
  let o ← j.asObj
  let sj ← (dget o "standings").bind Json.asObj
  let standings ← decodeDict some ManagerStanding.fromJson sj
  let wj ← (dget o "weeks").bind Json.asObj
  let weeks ← decodeDict strToInt Week.fromJson wj
  let league_id ←
    match dget o "leagueId" with
    | none => some none
    | some lj => (Json.asInt lj).map some
  let draft_results ←
    match dget o "draftResults" with
    | none => some none
    | some dj => (Draft.fromJson dj).map some
  some ⟨standings, weeks, league_id, draft_results⟩

theorem season_json_roundtrip (s : Season) :
    Season.fromJson (Season.toJson s) = some s := by
  obtain ⟨st, wk, lid, dr⟩ := s
  have hst : decodeDict some ManagerStanding.fromJson
      (encodeDict (fun k => k) ManagerStanding.toJson st) = some st :=
    decodeDict_encodeDict (fun k => rfl) (fun p _ => manager_standing_json_roundtrip p.2)
  have hwk : decodeDict strToInt Week.fromJson
      (encodeDict intToString Week.toJson wk) = some wk :=
    decodeDict_encodeDict strToInt_intToString (fun p _ => week_json_roundtrip p.2)
  cases lid with
  | none =>
    cases dr with
    | none =>
      have hpref : Season.fromJson (Season.toJson ⟨st, wk, none, none⟩) =
          (decodeDict some ManagerStanding.fromJson
            (encodeDict (fun k => k) ManagerStanding.toJson st)).bind (fun stD =>
          (decodeDict strToInt Week.fromJson
            (encodeDict intToString Week.toJson wk)).bind (fun wkD =>
          some ⟨stD, wkD, none, none⟩)) := rfl
      rw [hpref, hst]
      simp only [obind_some]
      rw [hwk]
      rfl
    | some dr0 =>
      have hpref : Season.fromJson (Season.toJson ⟨st, wk, none, some dr0⟩) =
          (decodeDict some ManagerStanding.fromJson
            (encodeDict (fun k => k) ManagerStanding.toJson st)).bind (fun stD =>
          (decodeDict strToInt Week.fromJson
            (encodeDict intToString Week.toJson wk)).bind (fun wkD =>
          ((Draft.fromJson (Draft.toJson dr0)).map some).bind (fun drd =>
          some ⟨stD, wkD, none, drd⟩))) := rfl
      rw [hpref, hst]
      simp only [obind_some]
      rw [hwk]
      simp only [obind_some]
      rw [draft_json_roundtrip dr0]
      rfl
  | some li =>
    cases dr with
    | none =>
      have hpref : Season.fromJson (Season.toJson ⟨st, wk, some li, none⟩) =
          (decodeDict some ManagerStanding.fromJson
            (encodeDict (fun k => k) ManagerStanding.toJson st)).bind (fun stD =>
          (decodeDict strToInt Week.fromJson
            (encodeDict intToString Week.toJson wk)).bind (fun wkD =>
          some ⟨stD, wkD, some li, none⟩)) := rfl
      rw [hpref, hst]
      simp only [obind_some]
      rw [hwk]
      rfl
    | some dr0 =>
      have hpref : Season.fromJson (Season.toJson ⟨st, wk, some li, some dr0⟩) =
          (decodeDict some ManagerStanding.fromJson
            (encodeDict (fun k => k) ManagerStanding.toJson st)).bind (fun stD =>
          (decodeDict strToInt Week.fromJson
            (encodeDict intToString Week.toJson wk)).bind (fun wkD =>
          ((Draft.fromJson (Draft.toJson dr0)).map some).bind (fun drd =>
          some ⟨stD, wkD, some li, drd⟩))) := rfl
      rw [hpref, hst]
      simp only [obind_some]
      rw [hwk]
      simp only [obind_some]
      rw [draft_json_roundtrip dr0]
      rfl

def Manager.toJson (m : Manager) : Json :=
  Json.obj [("name", Json.str m.name),
    ("seasons", Json.arr (m.seasons.map Json.int))]

def Manager.fromJson (j : Json) : Option Manager := do
  let o ← j.asObj
  let name ← (dget o "name").bind Json.asStr
  let sj ← (dget o "seasons").bind Json.asArr
  let seasons ← sj.mapM Json.asInt
  some ⟨name, seasons⟩

theorem manager_json_roundtrip (m : Manager) :
    Manager.fromJson (Manager.toJson m) = some m := by
  have hpref : Manager.fromJson (Manager.toJson m) =
      ((m.seasons.map Json.int).mapM Json.asInt).bind (fun ss =>
        some ⟨m.name, ss⟩) := rfl
  rw [hpref, mapM_asInt_map_int]
  rfl

def League.toJson (l : League) : Json :=
  Json.obj [("id", Json.str l.id),
    ("managers", Json.obj (encodeDict (fun k => k) Manager.toJson l.managers)),
    ("seasons", Json.obj (encodeDict intToString Season.toJson l.seasons))]

def League.fromJson (j : Json) : Option League := do
  let o ← j.asObj
  let id ← (dget o "id").bind Json.asStr
  let mj ← (dget o "managers").bind Json.asObj
  let managers ← decodeDict some Manager.fromJson mj
  let sj ← (dget o "seasons").bind Json.asObj
  let seasons ← decodeDict strToInt Season.fromJson sj
  some ⟨id, managers, seasons⟩

/-- C9: serializing any League value to its persisted camelCase JSON form
(string-keyed maps, optional Season fields omitted when absent,
`FinalStanding.rank` emitted as null when unknown) and deserializing that
JSON yields the original League: manager lists, season/week/game
structure and record tallies are all restored equal. -/
theorem c9_league_json_roundtrip (l : League) :
    League.fromJson (League.toJson l) = some l := by
  have hm : decodeDict some Manager.fromJson
      (encodeDict (fun k => k) Manager.toJson l.managers) = some l.managers :=
    decodeDict_encodeDict (fun k => rfl) (fun p _ => manager_json_roundtrip p.2)
  have hs : decodeDict strToInt Season.fromJson
      (encodeDict intToString Season.toJson l.seasons) = some l.seasons :=
    decodeDict_encodeDict strToInt_intToString (fun p _ => season_json_roundtrip p.2)
  have hpref : League.fromJson (League.toJson l) =
      (decodeDict some Manager.fromJson
        (encodeDict (fun k => k) Manager.toJson l.managers)).bind (fun ms =>
      (decodeDict strToInt Season.fromJson
        (encodeDict intToString Season.toJson l.seasons)).bind (fun ss =>
      some ⟨l.id, ms, ss⟩)) := rfl
  rw [hpref, hm]
  simp only [obind_some]
  rw [hs]
  rfl

end LHC
